import Mathlib

/-!
# Reasoning events and run-input decoding of the AG-UI Go SDK

Part one embeds `pkg/core/events/reasoning_events.go`: the seven reasoning event
structs with their constructors, their `Validate` and `ToJSON` methods and the two
chunk setters.  A Go `error` result is an `Option String`: `none` is the nil error
and `some msg` is an error carrying the message `msg`.

The embedded `*BaseEvent` and its `Validate` method are declared in another file of
the package.  They enter every definition as parameters: `B` is the type of the
values of the embedded pointer and `baseValidate : B → Option String` is the result
of `e.BaseEvent.Validate()`.
-/

set_option autoImplicit false

namespace events

/-! ## Event structs -/

/-- ReasoningStartEvent marks the start of a reasoning phase. -/
structure ReasoningStartEvent (B : Type) where
  BaseEvent : B
  MessageID : String

/-- ReasoningEndEvent marks the end of a reasoning phase. -/
structure ReasoningEndEvent (B : Type) where
  BaseEvent : B
  MessageID : String

/-- ReasoningMessageStartEvent indicates the start of a streaming reasoning message. -/
structure ReasoningMessageStartEvent (B : Type) where
  BaseEvent : B
  MessageID : String
  Role : String

/-- ReasoningMessageContentEvent contains streaming reasoning content. -/
structure ReasoningMessageContentEvent (B : Type) where
  BaseEvent : B
  MessageID : String
  Delta : String

/-- ReasoningMessageEndEvent indicates the end of a streaming reasoning message. -/
structure ReasoningMessageEndEvent (B : Type) where
  BaseEvent : B
  MessageID : String

/-- ReasoningMessageChunkEvent represents a chunk of reasoning message data.  The two
`*string` fields are options: `none` is the nil pointer. -/
structure ReasoningMessageChunkEvent (B : Type) where
  BaseEvent : B
  MessageID : Option String
  Delta : Option String

/-- ReasoningEncryptedValueSubtype is a Go string type. -/
abbrev ReasoningEncryptedValueSubtype := String

/-- The encrypted value is attached to a tool call. -/
def ReasoningEncryptedValueSubtypeToolCall : ReasoningEncryptedValueSubtype := "tool-call"

/-- The encrypted value is attached to a message. -/
def ReasoningEncryptedValueSubtypeMessage : ReasoningEncryptedValueSubtype := "message"

/-- ReasoningEncryptedValueEvent attaches an encrypted reasoning value to a message or
tool call. -/
structure ReasoningEncryptedValueEvent (B : Type) where
  BaseEvent : B
  Subtype : ReasoningEncryptedValueSubtype
  EntityID : String
  EncryptedValue : String

/-! ## Validation -/

/-- Validate of ReasoningStartEvent. -/
def ReasoningStartEvent.Validate {B : Type} (baseValidate : B → Option String)
    (e : ReasoningStartEvent B) : Option String :=
  match baseValidate e.BaseEvent with
  | some err => some err
  | none =>
    if e.MessageID = "" then
      some "ReasoningStartEvent validation failed: messageId field is required"
    else none

/-- Validate of ReasoningEndEvent. -/
def ReasoningEndEvent.Validate {B : Type} (baseValidate : B → Option String)
    (e : ReasoningEndEvent B) : Option String :=
  match baseValidate e.BaseEvent with
  | some err => some err
  | none =>
    if e.MessageID = "" then
      some "ReasoningEndEvent validation failed: messageId field is required"
    else none

/-- Validate of ReasoningMessageStartEvent. -/
def ReasoningMessageStartEvent.Validate {B : Type} (baseValidate : B → Option String)
    (e : ReasoningMessageStartEvent B) : Option String :=
  match baseValidate e.BaseEvent with
  | some err => some err
  | none =>
    if e.MessageID = "" then
      some "ReasoningMessageStartEvent validation failed: messageId field is required"
    else if e.Role = "" then
      some "ReasoningMessageStartEvent validation failed: role field is required"
    else none

/-- Validate of ReasoningMessageContentEvent. -/
def ReasoningMessageContentEvent.Validate {B : Type} (baseValidate : B → Option String)
    (e : ReasoningMessageContentEvent B) : Option String :=
  match baseValidate e.BaseEvent with
  | some err => some err
  | none =>
    if e.MessageID = "" then
      some "ReasoningMessageContentEvent validation failed: messageId field is required"
    else if e.Delta = "" then
      some "ReasoningMessageContentEvent validation failed: delta field must not be empty"
    else none

/-- Validate of ReasoningMessageEndEvent. -/
def ReasoningMessageEndEvent.Validate {B : Type} (baseValidate : B → Option String)
    (e : ReasoningMessageEndEvent B) : Option String :=
  match baseValidate e.BaseEvent with
  | some err => some err
  | none =>
    if e.MessageID = "" then
      some "ReasoningMessageEndEvent validation failed: messageId field is required"
    else none

/-- Validate of ReasoningMessageChunkEvent. -/
def ReasoningMessageChunkEvent.Validate {B : Type} (baseValidate : B → Option String)
    (e : ReasoningMessageChunkEvent B) : Option String :=
  match baseValidate e.BaseEvent with
  | some err => some err
  | none =>
    if e.MessageID = none ∧ e.Delta = none then
      some "ReasoningMessageChunkEvent validation failed: at least one of messageId or delta must be present"
    else if e.MessageID ≠ none ∧ e.MessageID = some "" then
      some "ReasoningMessageChunkEvent validation failed: messageId field must not be empty when provided"
    else none

/-- Validate of ReasoningEncryptedValueEvent. -/
def ReasoningEncryptedValueEvent.Validate {B : Type} (baseValidate : B → Option String)
    (e : ReasoningEncryptedValueEvent B) : Option String :=
  match baseValidate e.BaseEvent with
  | some err => some err
  | none =>
    if e.Subtype ≠ ReasoningEncryptedValueSubtypeToolCall ∧
        e.Subtype ≠ ReasoningEncryptedValueSubtypeMessage then
      some "ReasoningEncryptedValueEvent validation failed: subtype must be 'tool-call' or 'message'"
    else if e.EntityID = "" then
      some "ReasoningEncryptedValueEvent validation failed: entityId field is required"
    else if e.EncryptedValue = "" then
      some "ReasoningEncryptedValueEvent validation failed: encryptedValue field is required"
    else none

/-! ## Constructors

`NewBaseEvent` and the `EventType...` constants are declared in another file of the
package.  The constructors take them as parameters: `T` is the type of the event-type
tags, `tags` holds the seven constants the file names, and `NewBaseEvent : T → B` is
the result of the call `NewBaseEvent(tag)` made by the constructor. -/

/-- The seven event-type constants that `reasoning_events.go` names. -/
structure EventTypes (T : Type) where
  EventTypeReasoningStart : T
  EventTypeReasoningEnd : T
  EventTypeReasoningMessageStart : T
  EventTypeReasoningMessageContent : T
  EventTypeReasoningMessageEnd : T
  EventTypeReasoningMessageChunk : T
  EventTypeReasoningEncryptedValue : T

/-- NewReasoningStartEvent creates a new reasoning start event. -/
def NewReasoningStartEvent {B T : Type} (NewBaseEvent : T → B) (tags : EventTypes T)
    (messageID : String) : ReasoningStartEvent B :=
  { BaseEvent := NewBaseEvent tags.EventTypeReasoningStart, MessageID := messageID }

/-- NewReasoningEndEvent creates a new reasoning end event. -/
def NewReasoningEndEvent {B T : Type} (NewBaseEvent : T → B) (tags : EventTypes T)
    (messageID : String) : ReasoningEndEvent B :=
  { BaseEvent := NewBaseEvent tags.EventTypeReasoningEnd, MessageID := messageID }

/-- NewReasoningMessageStartEvent creates a new reasoning message start event. -/
def NewReasoningMessageStartEvent {B T : Type} (NewBaseEvent : T → B)
    (tags : EventTypes T) (messageID role : String) : ReasoningMessageStartEvent B :=
  { BaseEvent := NewBaseEvent tags.EventTypeReasoningMessageStart,
    MessageID := messageID,
    Role := role }

/-- NewReasoningMessageContentEvent creates a new reasoning message content event. -/
def NewReasoningMessageContentEvent {B T : Type} (NewBaseEvent : T → B)
    (tags : EventTypes T) (messageID delta : String) : ReasoningMessageContentEvent B :=
  { BaseEvent := NewBaseEvent tags.EventTypeReasoningMessageContent,
    MessageID := messageID,
    Delta := delta }

/-- NewReasoningMessageEndEvent creates a new reasoning message end event. -/
def NewReasoningMessageEndEvent {B T : Type} (NewBaseEvent : T → B) (tags : EventTypes T)
    (messageID : String) : ReasoningMessageEndEvent B :=
  { BaseEvent := NewBaseEvent tags.EventTypeReasoningMessageEnd, MessageID := messageID }

/-- NewReasoningMessageChunkEvent creates a new reasoning message chunk event. -/
def NewReasoningMessageChunkEvent {B T : Type} (NewBaseEvent : T → B)
    (tags : EventTypes T) (messageID delta : Option String) :
    ReasoningMessageChunkEvent B :=
  { BaseEvent := NewBaseEvent tags.EventTypeReasoningMessageChunk,
    MessageID := messageID,
    Delta := delta }

/-- NewReasoningEncryptedValueEvent creates a new reasoning encrypted value event. -/
def NewReasoningEncryptedValueEvent {B T : Type} (NewBaseEvent : T → B)
    (tags : EventTypes T) (subtype : ReasoningEncryptedValueSubtype)
    (entityID encryptedValue : String) : ReasoningEncryptedValueEvent B :=
  { BaseEvent := NewBaseEvent tags.EventTypeReasoningEncryptedValue,
    Subtype := subtype,
    EntityID := entityID,
    EncryptedValue := encryptedValue }

/-! ## Chunk setters

The setters assign through the pointer receiver and return it.  The state is passed
explicitly: a store maps each pointer to the event it points to, and a setter takes
the store and the receiver and gives back the new store and the returned pointer. -/

/-- The events that the `*ReasoningMessageChunkEvent` pointers point to. -/
abbrev ChunkStore (B : Type) := Nat → ReasoningMessageChunkEvent B

/-- WithChunkMessageID sets the message ID for the chunk. -/
def WithChunkMessageID {B : Type} (store : ChunkStore B) (e : Nat) (id : String) :
    ChunkStore B × Nat :=
  (Function.update store e { store e with MessageID := some id }, e)

/-- WithChunkDelta sets the delta content for the chunk. -/
def WithChunkDelta {B : Type} (store : ChunkStore B) (e : Nat) (delta : String) :
    ChunkStore B × Nat :=
  (Function.update store e { store e with Delta := some delta }, e)

/-! ## Serialisation

Every `ToJSON` is `json.Marshal(e)`, which walks the struct by reflection.  The model
gives the object that `json.Marshal` writes as the ordered list of its members; its
rendering as bytes is outside the model.  The members that the embedded `*BaseEvent`
contributes are a parameter, `baseMarshal`, which may fail as `json.Marshal` may; the
model takes it that `BaseEvent` declares no `MarshalJSON` of its own. -/

/-- A JSON value in the output: null, a string, or a value contributed by the base
event, kept as its rendered text. -/
inductive JSONValue where
  | null
  | str (s : String)
  | raw (text : String)
  deriving DecidableEq

/-- A value of one of the two field types the event structs declare: `string` (also
the string type ReasoningEncryptedValueSubtype) or `*string`. -/
inductive FieldValue where
  | string (s : String)
  | pointer (p : Option String)

/-- One struct field as `json.Marshal` sees it: the key and the `omitempty` option of
its `json` tag, and its value. -/
structure Field where
  key : String
  omitempty : Bool
  value : FieldValue

/-- The members `json.Marshal` writes for one field: a string is written as a JSON
string and a non-nil pointer as the string it points to; with `omitempty` an empty
string and a nil pointer are left out, without it a nil pointer is written as null. -/
def Field.members (f : Field) : List (String × JSONValue) :=
  match f.value with
  | .string s => if f.omitempty = true ∧ s = "" then [] else [(f.key, .str s)]
  | .pointer none => if f.omitempty = true then [] else [(f.key, .null)]
  | .pointer (some s) => [(f.key, .str s)]

/-- The object `json.Marshal` writes for a struct that embeds `*BaseEvent` and then
declares `fields`: the promoted members of the base event, except those whose key a
declared field of the struct takes (the less nested field wins), followed by the
declared fields in order. -/
def jsonMarshal {B : Type} (baseMarshal : B → Except String (List (String × JSONValue)))
    (base : B) (fields : List Field) : Except String (List (String × JSONValue)) :=
  match baseMarshal base with
  | .error err => .error err
  | .ok promoted =>
    .ok (promoted.filter (fun kv => !(fields.map Field.key).contains kv.1)
          ++ (fields.map Field.members).flatten)

/-- The declared fields of ReasoningStartEvent with their `json` tags. -/
def ReasoningStartEvent.jsonFields {B : Type} (e : ReasoningStartEvent B) : List Field :=
  [⟨"messageId", false, .string e.MessageID⟩]

/-- The declared fields of ReasoningEndEvent with their `json` tags. -/
def ReasoningEndEvent.jsonFields {B : Type} (e : ReasoningEndEvent B) : List Field :=
  [⟨"messageId", false, .string e.MessageID⟩]

/-- The declared fields of ReasoningMessageStartEvent with their `json` tags. -/
def ReasoningMessageStartEvent.jsonFields {B : Type} (e : ReasoningMessageStartEvent B) :
    List Field :=
  [⟨"messageId", false, .string e.MessageID⟩, ⟨"role", false, .string e.Role⟩]

/-- The declared fields of ReasoningMessageContentEvent with their `json` tags. -/
def ReasoningMessageContentEvent.jsonFields {B : Type}
    (e : ReasoningMessageContentEvent B) : List Field :=
  [⟨"messageId", false, .string e.MessageID⟩, ⟨"delta", false, .string e.Delta⟩]

/-- The declared fields of ReasoningMessageEndEvent with their `json` tags. -/
def ReasoningMessageEndEvent.jsonFields {B : Type} (e : ReasoningMessageEndEvent B) :
    List Field :=
  [⟨"messageId", false, .string e.MessageID⟩]

/-- The declared fields of ReasoningMessageChunkEvent with their `json` tags, both
`omitempty`. -/
def ReasoningMessageChunkEvent.jsonFields {B : Type} (e : ReasoningMessageChunkEvent B) :
    List Field :=
  [⟨"messageId", true, .pointer e.MessageID⟩, ⟨"delta", true, .pointer e.Delta⟩]

/-- The declared fields of ReasoningEncryptedValueEvent with their `json` tags. -/
def ReasoningEncryptedValueEvent.jsonFields {B : Type}
    (e : ReasoningEncryptedValueEvent B) : List Field :=
  [⟨"subtype", false, .string e.Subtype⟩, ⟨"entityId", false, .string e.EntityID⟩,
   ⟨"encryptedValue", false, .string e.EncryptedValue⟩]

/-- ToJSON serializes the event to JSON. -/
def ReasoningStartEvent.ToJSON {B : Type}
    (baseMarshal : B → Except String (List (String × JSONValue)))
    (e : ReasoningStartEvent B) : Except String (List (String × JSONValue)) :=
  jsonMarshal baseMarshal e.BaseEvent e.jsonFields

/-- ToJSON serializes the event to JSON. -/
def ReasoningEndEvent.ToJSON {B : Type}
    (baseMarshal : B → Except String (List (String × JSONValue)))
    (e : ReasoningEndEvent B) : Except String (List (String × JSONValue)) :=
  jsonMarshal baseMarshal e.BaseEvent e.jsonFields

/-- ToJSON serializes the event to JSON. -/
def ReasoningMessageStartEvent.ToJSON {B : Type}
    (baseMarshal : B → Except String (List (String × JSONValue)))
    (e : ReasoningMessageStartEvent B) : Except String (List (String × JSONValue)) :=
  jsonMarshal baseMarshal e.BaseEvent e.jsonFields

/-- ToJSON serializes the event to JSON. -/
def ReasoningMessageContentEvent.ToJSON {B : Type}
    (baseMarshal : B → Except String (List (String × JSONValue)))
    (e : ReasoningMessageContentEvent B) : Except String (List (String × JSONValue)) :=
  jsonMarshal baseMarshal e.BaseEvent e.jsonFields

/-- ToJSON serializes the event to JSON. -/
def ReasoningMessageEndEvent.ToJSON {B : Type}
    (baseMarshal : B → Except String (List (String × JSONValue)))
    (e : ReasoningMessageEndEvent B) : Except String (List (String × JSONValue)) :=
  jsonMarshal baseMarshal e.BaseEvent e.jsonFields

/-- ToJSON serializes the event to JSON. -/
def ReasoningMessageChunkEvent.ToJSON {B : Type}
    (baseMarshal : B → Except String (List (String × JSONValue)))
    (e : ReasoningMessageChunkEvent B) : Except String (List (String × JSONValue)) :=
  jsonMarshal baseMarshal e.BaseEvent e.jsonFields

/-- ToJSON serializes the event to JSON. -/
def ReasoningEncryptedValueEvent.ToJSON {B : Type}
    (baseMarshal : B → Except String (List (String × JSONValue)))
    (e : ReasoningEncryptedValueEvent B) : Except String (List (String × JSONValue)) :=
  jsonMarshal baseMarshal e.BaseEvent e.jsonFields

/-- Whether a key appears among the members of an object. -/
def hasKey (key : String) (members : List (String × JSONValue)) : Bool :=
  members.any (fun kv => kv.1 = key)

/-! ## Sample parameters -/

/-- A base-event check used to instantiate the parameters: the base event is a flag
and validation fails exactly when the flag is off. -/
def sampleBaseValidate (ok : Bool) : Option String :=
  if ok then none else some "BaseEvent validation failed"

/-- A base-event serialisation used to instantiate the parameters: a base event whose
flag is on contributes its type tag and, to show which field wins, a member under the
key `messageId`; one whose flag is off cannot be serialised. -/
def sampleBaseMarshal (ok : Bool) : Except String (List (String × JSONValue)) :=
  if ok then .ok [("type", .str "SAMPLE"), ("messageId", .raw "0")]
  else .error "json: unsupported type"

/-- Sample event-type tags: the names of the seven constants. -/
def sampleTags : EventTypes String :=
  { EventTypeReasoningStart := "EventTypeReasoningStart",
    EventTypeReasoningEnd := "EventTypeReasoningEnd",
    EventTypeReasoningMessageStart := "EventTypeReasoningMessageStart",
    EventTypeReasoningMessageContent := "EventTypeReasoningMessageContent",
    EventTypeReasoningMessageEnd := "EventTypeReasoningMessageEnd",
    EventTypeReasoningMessageChunk := "EventTypeReasoningMessageChunk",
    EventTypeReasoningEncryptedValue := "EventTypeReasoningEncryptedValue" }

/-- A sample `NewBaseEvent`: the base event is valid exactly for a non-empty tag. -/
def sampleNewBaseEvent (tag : String) : Bool :=
  decide (tag ≠ "")

/-- A sample store: every pointer points to an empty chunk event. -/
def sampleStore : ChunkStore Bool :=
  fun _ => { BaseEvent := true, MessageID := none, Delta := none }

end events

/-!
# Message and run-input decoding (`pkg/core/types`)

Only `types_test.go` of this package is among the sources; `types.go`, which declares
the types and their decoders, is not.  The definitions of this part are therefore
models written from the specification (sections 3, 4 and 7) and from the fixtures of
`types_test.go`.  A payload is a parsed JSON value: reading bytes into a JSON value
is outside the model.
-/

namespace types

/-- Modelled from the spec: the JSON values of the wire format (section 6); `types.go`
and the JSON reader are not among the sources.  An object is the ordered list of its
members and a number keeps its literal text, since no decoder inspects a number. -/
inductive JSON where
  | null
  | bool (b : Bool)
  | num (lit : String)
  | str (s : String)
  | arr (items : List JSON)
  | obj (members : List (String × JSON))

/-- Modelled from the spec: the error taxonomy of section 7 (the decoders of `types.go`
are not among the sources). -/
inductive DecodeError where
  | MissingRequiredField (name : String)
  | EmptyRequiredField (name : String)
  | UnknownRole
  | UnknownContentType
  | InvalidContentShape
  | MissingContentSource
  | InvalidEnumValue (field : String) (allowed : List String)
  deriving DecidableEq

/-- Modelled from the spec: the members of a payload (`types.go` is not among the
sources); a payload that is not an object has none. -/
def membersOf : JSON → List (String × JSON)
  | .obj members => members
  | _ => []

/-- Modelled from the spec: the value found under one key of a field mapping, the first
member of that name (section 4.1, `types.go` is not among the sources). -/
def lookupKey (key : String) : List (String × JSON) → Option JSON
  | [] => none
  | (k, v) :: rest => if k = key then some v else lookupKey key rest

/-- Modelled from the spec: the field-alias decoder of section 4.1 (`types.go` is not
among the sources): the value under whichever of the two names is present, the
camelCase name taking precedence when both are. -/
def decodeField (members : List (String × JSON)) (camel snake : String) : Option JSON :=
  match lookupKey camel members with
  | some v => some v
  | none => lookupKey snake members

/-- Modelled from the spec: a required string field whose absence is
`MissingRequiredField` (`types.go` is not among the sources).  A value that is not a
string counts as absent: the taxonomy has no error for a wrongly typed field. -/
def requireString (name : String) : Option JSON → Except DecodeError String
  | some (.str s) => .ok s
  | _ => .error (.MissingRequiredField name)

/-- Modelled from the spec: a required field that must be a non-empty string (section
4.3, `types.go` is not among the sources): absent is `MissingRequiredField`, empty is
`EmptyRequiredField`. -/
def requireNonEmpty (name : String) : Option JSON → Except DecodeError String
  | some (.str s) => if s = "" then .error (.EmptyRequiredField name) else .ok s
  | _ => .error (.MissingRequiredField name)

/-- Modelled from the spec: an optional string field (`types.go` is not among the
sources); absent or malformed gives the empty string, the zero value of the Go field. -/
def optionalString : Option JSON → String
  | some (.str s) => s
  | _ => ""

/-- Modelled from the spec: decoding the elements of a list in order, failing at the
first element that fails (sections 4.5 and 7; `types.go` is not among the sources). -/
def decodeAll {α : Type} (f : JSON → Except DecodeError α) :
    List JSON → Except DecodeError (List α)
  | [] => .ok []
  | x :: xs =>
    match f x with
    | .error e => .error e
    | .ok a =>
      match decodeAll f xs with
      | .error e => .error e
      | .ok rest => .ok (a :: rest)

/-! ## InputContent -/

/-- Modelled from the spec: the tag of an InputContent, `text` or `binary` (section 3;
`types.go` is not among the sources). -/
inductive InputContentType where
  | text
  | binary
  deriving DecidableEq

/-- Modelled from the spec: one multimodal part of a user message (section 3), with the
field names the fixtures of `types_test.go` use; `types.go` is not among the sources.
`Data` is the inline data field, the source other than `url`.  An absent string field
is the empty string, as in the Go struct; the field `Type` is written `Type'`. -/
structure InputContent where
  Type' : InputContentType
  Text : String := ""
  MimeType : String := ""
  URL : String := ""
  Data : String := ""
  Filename : String := ""
  deriving DecidableEq

/-- Modelled from the spec: the field-presence rule of a part (sections 3 and 4.3;
`types.go` is not among the sources): a text part has text, a binary part has a
mimeType and at least one source. -/
def InputContent.validate (c : InputContent) : Except DecodeError Unit :=
  match c.Type' with
  | .text =>
    if c.Text = "" then .error (.MissingRequiredField "text") else .ok ()
  | .binary =>
    if c.MimeType = "" then .error (.MissingRequiredField "mimeType")
    else if c.URL = "" ∧ c.Data = "" then .error .MissingContentSource
    else .ok ()

/-- Modelled from the spec: a part is valid when its field-presence rule raises no
error (`types.go` is not among the sources). -/
def InputContent.isValid (c : InputContent) : Bool :=
  match c.validate with
  | .ok _ => true
  | .error _ => false

/-- Modelled from the spec: InputContent decoding, section 4.3 (`types.go` is not among
the sources).  `type` is read without alias; `mimeType` through the alias decoder;
`filename` is optional and unchecked. -/
def decodeInputContent (raw : JSON) : Except DecodeError InputContent :=
  let members := membersOf raw
  match requireString "type" (lookupKey "type" members) with
  | .error e => .error e
  | .ok tag =>
    if tag = "text" then
      match requireNonEmpty "text" (lookupKey "text" members) with
      | .error e => .error e
      | .ok text => .ok { Type' := .text, Text := text }
    else if tag = "binary" then
      match requireNonEmpty "mimeType" (decodeField members "mimeType" "mime_type") with
      | .error e => .error e
      | .ok mime =>
        let url := optionalString (lookupKey "url" members)
        let data := optionalString (lookupKey "data" members)
        if url = "" ∧ data = "" then .error .MissingContentSource
        else .ok { Type' := .binary, MimeType := mime, URL := url, Data := data,
                   Filename := optionalString (lookupKey "filename" members) }
    else .error .UnknownContentType

/-! ## Message -/

/-- Modelled from the spec: the five roles of section 3 (`types.go` is not among the
sources). -/
inductive Role where
  | user
  | assistant
  | tool
  | activity
  | reasoning
  deriving DecidableEq

/-- Modelled from the spec: the role named by a tag, each role serialising as its
lowercase name (section 6; `types.go` is not among the sources). -/
def Role.ofString (tag : String) : Option Role :=
  if tag = "user" then some .user
  else if tag = "assistant" then some .assistant
  else if tag = "tool" then some .tool
  else if tag = "activity" then some .activity
  else if tag = "reasoning" then some .reasoning
  else none

/-- Modelled from the spec: the Function sub-object of a ToolCall (section 3;
`types.go` is not among the sources). -/
structure FunctionCall where
  Name : String := ""
  Arguments : String := ""
  deriving DecidableEq

/-- Modelled from the spec: a ToolCall (section 3; `types.go` is not among the
sources). -/
structure ToolCall where
  ID : String := ""
  Type' : String := ""
  Function : FunctionCall := {}
  deriving DecidableEq

/-- Modelled from the spec: the value of a message's `Content` field, which the
fixtures of `types_test.go` fill with a Go `any` (`types.go` is not among the sources):
nothing, a decoded JSON value (a string, a `map[string]any`, a `[]any`), or a list of
InputContent parts. -/
inductive Content where
  | absent
  | value (v : JSON)
  | parts (ps : List InputContent)

/-- Modelled from the spec: a Message (section 3) with the field names the fixtures of
`types_test.go` use; `types.go` is not among the sources. -/
structure Message where
  ID : String := ""
  Role : Role
  Content : Content := .absent
  ActivityType : String := ""
  ToolCalls : List ToolCall := []
  ToolCallID : String := ""
  Error : String := ""
  EncryptedContent : String := ""
  EncryptedValue : String := ""

/-- Modelled from the spec: "get content as plain string if role permits it" (section
4.4; `types.go` is not among the sources).  Every role but activity has string
content; `none` is the absent result. -/
def Message.ContentString (m : Message) : Option String :=
  match m.Role with
  | .activity => none
  | _ =>
    match m.Content with
    | .value (.str s) => some s
    | _ => none

/-- Modelled from the spec: "get content as an ordered list of InputContent if role and
shape permit it" (section 4.4; `types.go` is not among the sources).  Only a user
message has list content, and the fixtures of `types_test.go` fix that a list holding an
invalid part is absent. -/
def Message.ContentInputContents (m : Message) : Option (List InputContent) :=
  match m.Role with
  | .user =>
    match m.Content with
    | .parts ps => if ps.all InputContent.isValid then some ps else none
    | _ => none
  | _ => none

/-- Modelled from the spec: "get content as a structured object if role is activity"
(section 4.4; `types.go` is not among the sources). -/
def Message.ContentActivity (m : Message) : Option (List (String × JSON)) :=
  match m.Role with
  | .activity =>
    match m.Content with
    | .value (.obj members) => some members
    | _ => none
  | _ => none

/-- Modelled from the spec: the content-variant resolver of section 4.2 (`types.go` is
not among the sources).  User content is a string or a list of parts, and the list
fails as soon as one part fails (section 8); activity content is an object; reasoning
and tool content is a string; assistant content is a string or absent.  Nothing is
coerced: every other shape is `InvalidContentShape`. -/
def resolveContent (role : Role) (raw : Option JSON) : Except DecodeError Content :=
  match role with
  | .user =>
    match raw with
    | some (.str s) => .ok (.value (.str s))
    | some (.arr items) =>
      match decodeAll decodeInputContent items with
      | .ok ps => .ok (.parts ps)
      | .error _ => .error .InvalidContentShape
    | _ => .error .InvalidContentShape
  | .activity =>
    match raw with
    | some (.obj members) => .ok (.value (.obj members))
    | _ => .error .InvalidContentShape
  | .assistant =>
    match raw with
    | none => .ok .absent
    | some (.str s) => .ok (.value (.str s))
    | some _ => .error .InvalidContentShape
  | .tool =>
    match raw with
    | some (.str s) => .ok (.value (.str s))
    | _ => .error .InvalidContentShape
  | .reasoning =>
    match raw with
    | some (.str s) => .ok (.value (.str s))
    | _ => .error .InvalidContentShape

/-- Modelled from the spec: one ToolCall of a `toolCalls` list (section 3; `types.go`
is not among the sources); an element that is not an object is malformed. -/
def decodeToolCall : JSON → Option ToolCall
  | .obj members =>
    let fn := membersOf ((lookupKey "function" members).getD .null)
    some { ID := optionalString (lookupKey "id" members),
           Type' := optionalString (lookupKey "type" members),
           Function := { Name := optionalString (lookupKey "name" fn),
                         Arguments := optionalString (lookupKey "arguments" fn) } }
  | _ => none

/-- Modelled from the spec: the elements of a `toolCalls` list, none when one of them
is malformed (`types.go` is not among the sources). -/
def decodeToolCallList : List JSON → Option (List ToolCall)
  | [] => some []
  | x :: xs =>
    match decodeToolCall x, decodeToolCallList xs with
    | some tc, some rest => some (tc :: rest)
    | _, _ => none

/-- Modelled from the spec: the optional `toolCalls` field (section 4.4 step 4 and 5;
`types.go` is not among the sources): a malformed list fails just that field, which
is then empty. -/
def decodeToolCalls : Option JSON → List ToolCall
  | some (.arr items) => (decodeToolCallList items).getD []
  | _ => []

/-- Modelled from the spec: the role of a message (section 4.4 step 1; `types.go` is
not among the sources): required, and one of the five tags, else `UnknownRole`. -/
def decodeRole (raw : Option JSON) : Except DecodeError Role :=
  match requireString "role" raw with
  | .error e => .error e
  | .ok tag =>
    match Role.ofString tag with
    | some r => .ok r
    | none => .error .UnknownRole

/-- Modelled from the spec: a role-specific string field (section 4.4 step 2;
`types.go` is not among the sources): required for the role that owns it, passed
through when present for the others. -/
def decodeRoleField (required : Bool) (name : String) (raw : Option JSON) :
    Except DecodeError String :=
  if required then requireString name raw else .ok (optionalString raw)

/-- Modelled from the spec: the message envelope decoder of section 4.4 (`types.go` is
not among the sources), its steps in the order the section lists them: id and role,
the fields the role requires, the content, then the optional siblings. -/
def decodeMessage (raw : JSON) : Except DecodeError Message :=
  let members := membersOf raw
  match requireString "id" (lookupKey "id" members) with
  | .error e => .error e
  | .ok id =>
    match decodeRole (lookupKey "role" members) with
    | .error e => .error e
    | .ok role =>
      match decodeRoleField (role = .tool) "toolCallId"
          (decodeField members "toolCallId" "tool_call_id") with
      | .error e => .error e
      | .ok toolCallID =>
        match decodeRoleField (role = .activity) "activityType"
            (decodeField members "activityType" "activity_type") with
        | .error e => .error e
        | .ok activityType =>
          match resolveContent role (lookupKey "content" members) with
          | .error e => .error e
          | .ok content =>
            .ok { ID := id, Role := role, Content := content,
                  ActivityType := activityType,
                  ToolCalls := decodeToolCalls (decodeField members "toolCalls" "tool_calls"),
                  ToolCallID := toolCallID,
                  Error := optionalString (lookupKey "error" members),
                  EncryptedContent :=
                    optionalString (decodeField members "encryptedContent" "encrypted_content"),
                  EncryptedValue :=
                    optionalString (decodeField members "encryptedValue" "encrypted_value") }

/-! ## RunAgentInput -/

/-- Modelled from the spec: a Tool definition (section 3; `types.go` is not among the
sources); the parameter schema is opaque. -/
structure Tool where
  Name : String := ""
  Description : String := ""
  Parameters : Option JSON := none

/-- Modelled from the spec: a Context entry (section 3; `types.go` is not among the
sources). -/
structure Context where
  Description : String := ""
  Value : String := ""
  deriving DecidableEq

/-- Modelled from the spec: the top-level payload of section 3, named as in
`types_test.go`; `types.go` is not among the sources.  State and ForwardedProps are
opaque values. -/
structure RunAgentInput where
  ThreadID : String
  RunID : String
  ParentRunID : Option String := none
  State : Option JSON := none
  Messages : List Message := []
  Tools : List Tool := []
  Context : List Context := []
  ForwardedProps : Option JSON := none

/-- Modelled from the spec: one Tool of the `tools` list (section 4.5; `types.go` is not
among the sources). -/
def decodeTool (raw : JSON) : Tool :=
  let members := membersOf raw
  { Name := optionalString (lookupKey "name" members),
    Description := optionalString (lookupKey "description" members),
    Parameters := lookupKey "parameters" members }

/-- Modelled from the spec: one entry of the `context` list (section 4.5; `types.go` is
not among the sources). -/
def decodeContext (raw : JSON) : Context :=
  let members := membersOf raw
  { Description := optionalString (lookupKey "description" members),
    Value := optionalString (lookupKey "value" members) }

/-- Modelled from the spec: the elements of a list-valued field (`types.go` is not
among the sources); an absent or malformed field has none. -/
def itemsOf : Option JSON → List JSON
  | some (.arr items) => items
  | _ => []

/-- Modelled from the spec: the optional nullable `parentRunId` (section 3; `types.go`
is not among the sources). -/
def optionalPointer : Option JSON → Option String
  | some (.str s) => some s
  | _ => none

/-- Modelled from the spec: the run-input decoder of section 4.5 (`types.go` is not
among the sources): the aliased scalar fields, then every message in order, the whole
decode failing when one message fails; tools, context, state and forwarded props
without further validation. -/
def decodeRunAgentInput (raw : JSON) : Except DecodeError RunAgentInput :=
  let members := membersOf raw
  match requireString "threadId" (decodeField members "threadId" "thread_id") with
  | .error e => .error e
  | .ok threadID =>
    match requireString "runId" (decodeField members "runId" "run_id") with
    | .error e => .error e
    | .ok runID =>
      match decodeAll decodeMessage (itemsOf (lookupKey "messages" members)) with
      | .error e => .error e
      | .ok messages =>
        .ok { ThreadID := threadID, RunID := runID,
              ParentRunID :=
                optionalPointer (decodeField members "parentRunId" "parent_run_id"),
              State := lookupKey "state" members,
              Messages := messages,
              Tools := (itemsOf (lookupKey "tools" members)).map decodeTool,
              Context := (itemsOf (lookupKey "context" members)).map decodeContext,
              ForwardedProps :=
                decodeField members "forwardedProps" "forwarded_props" }

/-! ## The two spellings of a payload -/

/-- Modelled from the spec: the alias table of section 4.1 and the design notes
(`types.go` is not among the sources): each aliased field with its camelCase and its
snake_case spelling, as the two fixtures of `types_test.go` spell them. -/
def aliasTable : List (String × String) :=
  [("threadId", "thread_id"), ("runId", "run_id"), ("parentRunId", "parent_run_id"),
   ("forwardedProps", "forwarded_props"), ("toolCalls", "tool_calls"),
   ("toolCallId", "tool_call_id"), ("activityType", "activity_type"),
   ("encryptedContent", "encrypted_content"), ("encryptedValue", "encrypted_value"),
   ("mimeType", "mime_type")]

/-- Modelled from the spec: the snake_case spelling of a key (`types.go` is not among
the sources): an aliased camelCase key is respelled, every other key is kept. -/
def snakeKey (k : String) : String :=
  match aliasTable.find? (fun p => p.1 = k) with
  | some p => p.2
  | none => k

/-- Modelled from the spec: whether a key is the snake_case spelling of an aliased
field (`types.go` is not among the sources). -/
def isSnakeKey (k : String) : Bool :=
  aliasTable.any (fun p => p.2 = k)

/-- Modelled from the spec: respelling the keys of one object, the value under each
key rewritten by `inner` (`types.go` is not among the sources). -/
def renameMembers (inner : String → JSON → JSON) (members : List (String × JSON)) :
    List (String × JSON) :=
  members.map (fun kv => (snakeKey kv.1, inner kv.1 kv.2))

/-- Modelled from the spec: an InputContent payload with its keys respelled
(`types.go` is not among the sources). -/
def partToSnake : JSON → JSON
  | .obj members => .obj (renameMembers (fun _ v => v) members)
  | v => v

/-- Modelled from the spec: the value under a message key with the keys of its
schema objects respelled: the parts of a `content` list (`types.go` is not among the
sources).  An object under `content` is opaque activity content and is kept. -/
def messageInner (k : String) (v : JSON) : JSON :=
  if k = "content" then
    match v with
    | .arr items => .arr (items.map partToSnake)
    | w => w
  else v

/-- Modelled from the spec: a Message payload with its keys respelled (`types.go` is
not among the sources). -/
def messageToSnake : JSON → JSON
  | .obj members => .obj (renameMembers messageInner members)
  | v => v

/-- Modelled from the spec: the value under a top-level key with the keys of its
schema objects respelled: the messages of the `messages` list (`types.go` is not among
the sources).  State, forwarded props, tools and context hold no aliased key of the
schema and are kept. -/
def runInputInner (k : String) (v : JSON) : JSON :=
  if k = "messages" then
    match v with
    | .arr items => .arr (items.map messageToSnake)
    | w => w
  else v

/-- Modelled from the spec: a RunAgentInput payload with each aliased key renamed to
its snake_case spelling and the same values (section 8; `types.go` is not among the
sources). -/
def toSnakeCase : JSON → JSON
  | .obj members => .obj (renameMembers runInputInner members)
  | v => v

/-- Modelled from the spec: no key of the object is a snake_case spelling, and the
value under each key passes `inner` (`types.go` is not among the sources). -/
def membersCamel (inner : String → JSON → Bool) (members : List (String × JSON)) : Bool :=
  members.all (fun kv => !isSnakeKey kv.1 && inner kv.1 kv.2)

/-- Modelled from the spec: an InputContent payload written with camelCase keys
(`types.go` is not among the sources). -/
def partCamel : JSON → Bool
  | .obj members => membersCamel (fun _ _ => true) members
  | _ => true

/-- Modelled from the spec: the value under a message key is written with camelCase
keys (`types.go` is not among the sources). -/
def messageInnerCamel (k : String) (v : JSON) : Bool :=
  if k = "content" then
    match v with
    | .arr items => items.all partCamel
    | _ => true
  else true

/-- Modelled from the spec: a Message payload written with camelCase keys (`types.go`
is not among the sources). -/
def messageCamel : JSON → Bool
  | .obj members => membersCamel messageInnerCamel members
  | _ => true

/-- Modelled from the spec: the value under a top-level key is written with camelCase
keys (`types.go` is not among the sources). -/
def runInputInnerCamel (k : String) (v : JSON) : Bool :=
  if k = "messages" then
    match v with
    | .arr items => items.all messageCamel
    | _ => true
  else true

/-- Modelled from the spec: a RunAgentInput payload written with camelCase keys
(section 8; `types.go` is not among the sources): none of its schema objects (the
payload, its messages, their content parts) has a key in snake_case spelling. -/
def writtenInCamelCase : JSON → Bool
  | .obj members => membersCamel runInputInnerCamel members
  | _ => true

/-! ## Fixtures of `types_test.go` -/

/-- The payload of TestMessageContentInputContents. -/
def twoPartPayload : JSON :=
  .obj [("id", .str "msg-1"), ("role", .str "user"),
    ("content", .arr [
      .obj [("type", .str "text"), ("text", .str "hi")],
      .obj [("type", .str "binary"), ("mime_type", .str "image/png"),
            ("url", .str "https://example.com/test.png")]])]

/-- The payload of TestMessageContentActivity. -/
def activityPayload : JSON :=
  .obj [("id", .str "msg-1"), ("role", .str "activity"),
    ("activityType", .str "progress"), ("content", .obj [("step", .num "1")])]

/-- The payload of TestRunAgentInputUnmarshalCamelCase. -/
def camelCasePayload : JSON :=
  .obj [("threadId", .str "thread-1"), ("runId", .str "run-1"),
    ("parentRunId", .str "run-0"),
    ("state", .obj [("mode", .str "test")]),
    ("messages", .arr [
      .obj [("id", .str "msg-1"), ("role", .str "user"), ("content", .str "hello")],
      .obj [("id", .str "msg-2"), ("role", .str "assistant"), ("content", .str "hi"),
            ("encryptedContent", .str "enc-content-msg-2"),
            ("toolCalls", .arr [
              .obj [("id", .str "tc-1"), ("type", .str "function"),
                    ("function", .obj [("name", .str "tool"), ("arguments", .str "{}")])]])],
      .obj [("id", .str "reasoning-1"), ("role", .str "reasoning"),
            ("content", .str "summary"), ("encryptedValue", .str "enc-reasoning-1")]]),
    ("tools", .arr [.obj [("name", .str "tool"), ("description", .str "desc"),
                          ("parameters", .obj [("type", .str "object")])]]),
    ("context", .arr [.obj [("description", .str "ctx"), ("value", .str "val")]]),
    ("forwardedProps", .obj [("traceId", .str "abc")])]

/-- The RunAgentInput that `camelCasePayload` decodes to. -/
def camelCaseDecoded : RunAgentInput :=
  { ThreadID := "thread-1", RunID := "run-1", ParentRunID := some "run-0",
    State := some (.obj [("mode", .str "test")]),
    Messages := [
      { ID := "msg-1", Role := .user, Content := .value (.str "hello") },
      { ID := "msg-2", Role := .assistant, Content := .value (.str "hi"),
        EncryptedContent := "enc-content-msg-2",
        ToolCalls := [{ ID := "tc-1", Type' := "function",
                        Function := { Name := "tool", Arguments := "{}" } }] },
      { ID := "reasoning-1", Role := .reasoning, Content := .value (.str "summary"),
        EncryptedValue := "enc-reasoning-1" }],
    Tools := [{ Name := "tool", Description := "desc",
                Parameters := some (.obj [("type", .str "object")]) }],
    Context := [{ Description := "ctx", Value := "val" }],
    ForwardedProps := some (.obj [("traceId", .str "abc")]) }

end types

/-! # Theorems about the reasoning events -/

namespace events

/-- C1: for a ReasoningMessageChunkEvent whose base event validates, Validate returns
an error exactly when MessageID and Delta are both absent or MessageID is present and
empty.  Delta is never inspected: with MessageID absent and Delta present the event
validates for every delta string (the empty one included), and replacing a present
delta by any other string never changes the result. -/
theorem chunk_validate_error_iff {B : Type} (baseValidate : B → Option String)
    (e : ReasoningMessageChunkEvent B) (hbase : baseValidate e.BaseEvent = none) :
    ((∃ err, e.Validate baseValidate = some err) ↔
        ((e.MessageID = none ∧ e.Delta = none) ∨ e.MessageID = some "")) ∧
    (∀ d : String,
        ReasoningMessageChunkEvent.Validate baseValidate ⟨e.BaseEvent, none, some d⟩ = none) ∧
    (∀ d d' : String,
        ReasoningMessageChunkEvent.Validate baseValidate ⟨e.BaseEvent, e.MessageID, some d⟩ =
        ReasoningMessageChunkEvent.Validate baseValidate ⟨e.BaseEvent, e.MessageID, some d'⟩) := by
  obtain ⟨b, mid, delta⟩ := e
  simp only at hbase
  refine ⟨?_, ?_, ?_⟩
  · cases mid <;> cases delta <;>
      simp [ReasoningMessageChunkEvent.Validate, hbase]
  · intro d
    simp [ReasoningMessageChunkEvent.Validate, hbase]
  · intro d d'
    simp [ReasoningMessageChunkEvent.Validate, hbase]

/-- Witness for C1: the chunk event with a validating base, no messageId and the
empty delta validates. -/
theorem chunk_validate_error_iff_witness :
    sampleBaseValidate true = none ∧
    ReasoningMessageChunkEvent.Validate sampleBaseValidate ⟨true, none, some ""⟩ = none :=
  ⟨rfl, (chunk_validate_error_iff sampleBaseValidate ⟨true, none, some ""⟩ rfl).2.1 ""⟩

/-- C2: a ReasoningEncryptedValueEvent whose Subtype is neither "tool-call" nor
"message" (the empty string included) fails validation, whatever its EntityID, its
EncryptedValue, its base event and the outcome of the base validation. -/
theorem encrypted_value_bad_subtype_fails {B : Type} (baseValidate : B → Option String)
    (e : ReasoningEncryptedValueEvent B)
    (h1 : e.Subtype ≠ "tool-call") (h2 : e.Subtype ≠ "message") :
    ∃ err, e.Validate baseValidate = some err := by
  unfold ReasoningEncryptedValueEvent.Validate
  cases hb : baseValidate e.BaseEvent with
  | some err => exact ⟨err, rfl⟩
  | none =>
    have h : e.Subtype ≠ ReasoningEncryptedValueSubtypeToolCall ∧
        e.Subtype ≠ ReasoningEncryptedValueSubtypeMessage := ⟨h1, h2⟩
    simp only [if_pos h]
    exact ⟨_, rfl⟩

/-- Witness for C2: the empty subtype is rejected although the base event, the
entity id and the encrypted value are all fine. -/
theorem encrypted_value_bad_subtype_fails_witness :
    ∃ err, ReasoningEncryptedValueEvent.Validate sampleBaseValidate
      ⟨true, "", "entity-1", "secret"⟩ = some err :=
  encrypted_value_bad_subtype_fails sampleBaseValidate ⟨true, "", "entity-1", "secret"⟩
    (by decide) (by decide)

/-- C3: for ReasoningStartEvent, ReasoningEndEvent and ReasoningMessageEndEvent with a
validating base event, Validate succeeds exactly when MessageID is not empty. -/
theorem single_field_events_validate_iff {B : Type} (baseValidate : B → Option String)
    (b : B) (hbase : baseValidate b = none) (messageID : String) :
    (ReasoningStartEvent.Validate baseValidate ⟨b, messageID⟩ = none ↔ messageID ≠ "") ∧
    (ReasoningEndEvent.Validate baseValidate ⟨b, messageID⟩ = none ↔ messageID ≠ "") ∧
    (ReasoningMessageEndEvent.Validate baseValidate ⟨b, messageID⟩ = none ↔
      messageID ≠ "") := by
  refine ⟨?_, ?_, ?_⟩
  · simp [ReasoningStartEvent.Validate, hbase]
  · simp [ReasoningEndEvent.Validate, hbase]
  · simp [ReasoningMessageEndEvent.Validate, hbase]

/-- Witness for C3: with a validating base, the message id "m1" is accepted by the
three events. -/
theorem single_field_events_validate_iff_witness :
    sampleBaseValidate true = none ∧
    ReasoningStartEvent.Validate sampleBaseValidate ⟨true, "m1"⟩ = none ∧
    ReasoningEndEvent.Validate sampleBaseValidate ⟨true, "m1"⟩ = none ∧
    ReasoningMessageEndEvent.Validate sampleBaseValidate ⟨true, "m1"⟩ = none :=
  have h := single_field_events_validate_iff sampleBaseValidate true rfl "m1"
  ⟨rfl, h.1.2 (by decide), h.2.1.2 (by decide), h.2.2.2 (by decide)⟩

/-- C4: with a validating base event, ReasoningMessageStartEvent validates exactly when
MessageID and Role are both non-empty (any non-empty role is accepted), and
ReasoningMessageContentEvent validates exactly when MessageID and Delta are both
non-empty. -/
theorem two_field_events_validate_iff {B : Type} (baseValidate : B → Option String)
    (b : B) (hbase : baseValidate b = none) (messageID second : String) :
    (ReasoningMessageStartEvent.Validate baseValidate ⟨b, messageID, second⟩ = none ↔
      (messageID ≠ "" ∧ second ≠ "")) ∧
    (ReasoningMessageContentEvent.Validate baseValidate ⟨b, messageID, second⟩ = none ↔
      (messageID ≠ "" ∧ second ≠ "")) := by
  constructor
  · by_cases h1 : messageID = "" <;> by_cases h2 : second = "" <;>
      simp [ReasoningMessageStartEvent.Validate, hbase, h1, h2]
  · by_cases h1 : messageID = "" <;> by_cases h2 : second = "" <;>
      simp [ReasoningMessageContentEvent.Validate, hbase, h1, h2]

/-- Witness for C4: a role outside any enum ("narrator") is accepted, and so is a
one-letter delta. -/
theorem two_field_events_validate_iff_witness :
    sampleBaseValidate true = none ∧
    ReasoningMessageStartEvent.Validate sampleBaseValidate ⟨true, "m1", "narrator"⟩ = none ∧
    ReasoningMessageContentEvent.Validate sampleBaseValidate ⟨true, "m1", "x"⟩ = none :=
  ⟨rfl,
   (two_field_events_validate_iff sampleBaseValidate true rfl "m1" "narrator").1.2
     ⟨by decide, by decide⟩,
   (two_field_events_validate_iff sampleBaseValidate true rfl "m1" "x").2.2
     ⟨by decide, by decide⟩⟩

/-- C5: with a validating base event, ReasoningEncryptedValueEvent validates exactly
when Subtype is "tool-call" or "message", EntityID is non-empty and EncryptedValue is
non-empty. -/
theorem encrypted_value_validate_iff {B : Type} (baseValidate : B → Option String)
    (e : ReasoningEncryptedValueEvent B) (hbase : baseValidate e.BaseEvent = none) :
    e.Validate baseValidate = none ↔
      ((e.Subtype = "tool-call" ∨ e.Subtype = "message") ∧ e.EntityID ≠ "" ∧
        e.EncryptedValue ≠ "") := by
  obtain ⟨b, st, eid, ev⟩ := e
  simp only at hbase
  by_cases h1 : st = "tool-call" <;> by_cases h2 : st = "message" <;>
    by_cases h3 : eid = "" <;> by_cases h4 : ev = "" <;>
    simp [ReasoningEncryptedValueEvent.Validate, hbase, h1, h2, h3, h4,
      ReasoningEncryptedValueSubtypeToolCall, ReasoningEncryptedValueSubtypeMessage]

/-- Witness for C5: the event ("message", "entity-1", "secret") over a validating
base validates. -/
theorem encrypted_value_validate_iff_witness :
    sampleBaseValidate true = none ∧
    ReasoningEncryptedValueEvent.Validate sampleBaseValidate
      ⟨true, "message", "entity-1", "secret"⟩ = none :=
  ⟨rfl, (encrypted_value_validate_iff sampleBaseValidate
      ⟨true, "message", "entity-1", "secret"⟩ rfl).2
      ⟨Or.inr rfl, by decide, by decide⟩⟩

/-! ## Serialisation -/

/-- When the base event serialises, the struct serialises to the promoted members of
the base that no declared field hides, followed by the members of the declared
fields. -/
theorem jsonMarshal_of_ok {B : Type}
    (baseMarshal : B → Except String (List (String × JSONValue))) (base : B)
    (fields : List Field) (promoted : List (String × JSONValue))
    (h : baseMarshal base = .ok promoted) :
    jsonMarshal baseMarshal base fields =
      .ok (promoted.filter (fun kv => !(fields.map Field.key).contains kv.1)
            ++ (fields.map Field.members).flatten) := by
  simp only [jsonMarshal, h]

/-- When the base event fails to serialise, that error is the result. -/
theorem jsonMarshal_of_error {B : Type}
    (baseMarshal : B → Except String (List (String × JSONValue))) (base : B)
    (fields : List Field) (err : String) (h : baseMarshal base = .error err) :
    jsonMarshal baseMarshal base fields = .error err := by
  simp only [jsonMarshal, h]

/-- C14: for each of the seven reasoning event types and every event e, ToJSON(e) is
the result of marshalling e, it succeeds whenever the embedded base event marshals,
and it fails only with the marshalling error of the base event.  Validate plays no
part: an event on which Validate returns an error (whatever the error) is serialised
all the same. -/
theorem toJSON_does_not_validate {B : Type}
    (baseMarshal : B → Except String (List (String × JSONValue)))
    (baseValidate : B → Option String) :
    (∀ e : ReasoningStartEvent B,
      e.ToJSON baseMarshal = jsonMarshal baseMarshal e.BaseEvent e.jsonFields ∧
      (∀ err, baseMarshal e.BaseEvent = .error err → e.ToJSON baseMarshal = .error err) ∧
      (∀ p verdict, baseMarshal e.BaseEvent = .ok p → e.Validate baseValidate = verdict →
        ∃ out, e.ToJSON baseMarshal = .ok out)) ∧
    (∀ e : ReasoningEndEvent B,
      e.ToJSON baseMarshal = jsonMarshal baseMarshal e.BaseEvent e.jsonFields ∧
      (∀ err, baseMarshal e.BaseEvent = .error err → e.ToJSON baseMarshal = .error err) ∧
      (∀ p verdict, baseMarshal e.BaseEvent = .ok p → e.Validate baseValidate = verdict →
        ∃ out, e.ToJSON baseMarshal = .ok out)) ∧
    (∀ e : ReasoningMessageStartEvent B,
      e.ToJSON baseMarshal = jsonMarshal baseMarshal e.BaseEvent e.jsonFields ∧
      (∀ err, baseMarshal e.BaseEvent = .error err → e.ToJSON baseMarshal = .error err) ∧
      (∀ p verdict, baseMarshal e.BaseEvent = .ok p → e.Validate baseValidate = verdict →
        ∃ out, e.ToJSON baseMarshal = .ok out)) ∧
    (∀ e : ReasoningMessageContentEvent B,
      e.ToJSON baseMarshal = jsonMarshal baseMarshal e.BaseEvent e.jsonFields ∧
      (∀ err, baseMarshal e.BaseEvent = .error err → e.ToJSON baseMarshal = .error err) ∧
      (∀ p verdict, baseMarshal e.BaseEvent = .ok p → e.Validate baseValidate = verdict →
        ∃ out, e.ToJSON baseMarshal = .ok out)) ∧
    (∀ e : ReasoningMessageEndEvent B,
      e.ToJSON baseMarshal = jsonMarshal baseMarshal e.BaseEvent e.jsonFields ∧
      (∀ err, baseMarshal e.BaseEvent = .error err → e.ToJSON baseMarshal = .error err) ∧
      (∀ p verdict, baseMarshal e.BaseEvent = .ok p → e.Validate baseValidate = verdict →
        ∃ out, e.ToJSON baseMarshal = .ok out)) ∧
    (∀ e : ReasoningMessageChunkEvent B,
      e.ToJSON baseMarshal = jsonMarshal baseMarshal e.BaseEvent e.jsonFields ∧
      (∀ err, baseMarshal e.BaseEvent = .error err → e.ToJSON baseMarshal = .error err) ∧
      (∀ p verdict, baseMarshal e.BaseEvent = .ok p → e.Validate baseValidate = verdict →
        ∃ out, e.ToJSON baseMarshal = .ok out)) ∧
    (∀ e : ReasoningEncryptedValueEvent B,
      e.ToJSON baseMarshal = jsonMarshal baseMarshal e.BaseEvent e.jsonFields ∧
      (∀ err, baseMarshal e.BaseEvent = .error err → e.ToJSON baseMarshal = .error err) ∧
      (∀ p verdict, baseMarshal e.BaseEvent = .ok p → e.Validate baseValidate = verdict →
        ∃ out, e.ToJSON baseMarshal = .ok out)) := by
  refine ⟨?_, ?_, ?_, ?_, ?_, ?_, ?_⟩ <;> intro e <;>
    exact ⟨rfl, fun err h => jsonMarshal_of_error baseMarshal _ _ err h,
      fun p _ h _ => ⟨_, jsonMarshal_of_ok baseMarshal _ _ p h⟩⟩

/-- Witness for C14: a start event with an empty messageId and an encrypted-value
event with a subtype outside the enum both fail Validate, and both are serialised. -/
theorem toJSON_does_not_validate_witness :
    (ReasoningStartEvent.Validate sampleBaseValidate ⟨true, ""⟩
        = some "ReasoningStartEvent validation failed: messageId field is required" ∧
      ∃ out, ReasoningStartEvent.ToJSON sampleBaseMarshal ⟨true, ""⟩ = .ok out) ∧
    ((∃ err, ReasoningEncryptedValueEvent.Validate sampleBaseValidate
        ⟨true, "tool_call", "entity-1", "secret"⟩ = some err) ∧
      ∃ out, ReasoningEncryptedValueEvent.ToJSON sampleBaseMarshal
        ⟨true, "tool_call", "entity-1", "secret"⟩ = .ok out) :=
  ⟨⟨rfl, (toJSON_does_not_validate sampleBaseMarshal sampleBaseValidate).1
      ⟨true, ""⟩ |>.2.2 _ _ rfl rfl⟩,
   ⟨⟨_, rfl⟩, (toJSON_does_not_validate sampleBaseMarshal sampleBaseValidate).2.2.2.2.2.2
      ⟨true, "tool_call", "entity-1", "secret"⟩ |>.2.2 _ _ rfl rfl⟩⟩

/-- The result of a successful marshalling: the base event marshalled, and the output
is its members that no declared field hides, followed by the declared fields. -/
theorem jsonMarshal_ok_inv {B : Type}
    (baseMarshal : B → Except String (List (String × JSONValue))) (base : B)
    (fields : List Field) (out : List (String × JSONValue))
    (h : jsonMarshal baseMarshal base fields = .ok out) :
    ∃ p, baseMarshal base = .ok p ∧
      out = p.filter (fun kv => !(fields.map Field.key).contains kv.1)
            ++ (fields.map Field.members).flatten := by
  unfold jsonMarshal at h
  cases hb : baseMarshal base with
  | error err =>
    rw [hb] at h
    cases h
  | ok p =>
    rw [hb] at h
    cases h
    exact ⟨p, rfl, rfl⟩

/-- A key that a declared field takes is not among the promoted members. -/
theorem hasKey_promoted (key : String) (keys : List String)
    (p : List (String × JSONValue)) (hk : key ∈ keys) :
    hasKey key (p.filter (fun kv => !keys.contains kv.1)) = false := by
  rw [Bool.eq_false_iff]
  intro h
  unfold hasKey at h
  obtain ⟨kv, hmem, hkv⟩ := List.any_eq_true.1 h
  have hf := (List.mem_filter.1 hmem).2
  have hkv' : kv.1 = key := by simpa using hkv
  rw [hkv'] at hf
  simp [hk] at hf

/-- A key appears in a concatenation when it appears in one of the two parts. -/
theorem hasKey_append (key : String) (xs ys : List (String × JSONValue)) :
    hasKey key (xs ++ ys) = (hasKey key xs || hasKey key ys) := by
  simp [hasKey, List.any_append]

/-- C15: when the base event marshals, the object ToJSON produces consists of members
promoted from the base event followed by the event-specific members, and these are
named by the camelCase keys messageId, role, delta, subtype, entityId and
encryptedValue only, each with a JSON string as value: no snake_case key is emitted
for an event field, and Subtype is emitted as its string tag, never as a number. -/
theorem toJSON_camelCase_keys {B : Type}
    (baseMarshal : B → Except String (List (String × JSONValue))) :
    (∀ (e : ReasoningStartEvent B) (p : List (String × JSONValue)),
      baseMarshal e.BaseEvent = .ok p →
      ∃ promoted, (∀ kv ∈ promoted, kv ∈ p) ∧
        e.ToJSON baseMarshal = .ok (promoted ++ [("messageId", .str e.MessageID)])) ∧
    (∀ (e : ReasoningEndEvent B) (p : List (String × JSONValue)),
      baseMarshal e.BaseEvent = .ok p →
      ∃ promoted, (∀ kv ∈ promoted, kv ∈ p) ∧
        e.ToJSON baseMarshal = .ok (promoted ++ [("messageId", .str e.MessageID)])) ∧
    (∀ (e : ReasoningMessageStartEvent B) (p : List (String × JSONValue)),
      baseMarshal e.BaseEvent = .ok p →
      ∃ promoted, (∀ kv ∈ promoted, kv ∈ p) ∧
        e.ToJSON baseMarshal =
          .ok (promoted ++ [("messageId", .str e.MessageID), ("role", .str e.Role)])) ∧
    (∀ (e : ReasoningMessageContentEvent B) (p : List (String × JSONValue)),
      baseMarshal e.BaseEvent = .ok p →
      ∃ promoted, (∀ kv ∈ promoted, kv ∈ p) ∧
        e.ToJSON baseMarshal =
          .ok (promoted ++ [("messageId", .str e.MessageID), ("delta", .str e.Delta)])) ∧
    (∀ (e : ReasoningMessageEndEvent B) (p : List (String × JSONValue)),
      baseMarshal e.BaseEvent = .ok p →
      ∃ promoted, (∀ kv ∈ promoted, kv ∈ p) ∧
        e.ToJSON baseMarshal = .ok (promoted ++ [("messageId", .str e.MessageID)])) ∧
    (∀ (e : ReasoningMessageChunkEvent B) (p : List (String × JSONValue)),
      baseMarshal e.BaseEvent = .ok p →
      ∃ promoted, (∀ kv ∈ promoted, kv ∈ p) ∧
        e.ToJSON baseMarshal =
          .ok (promoted
            ++ (e.MessageID.toList.map (fun s => ("messageId", JSONValue.str s))
              ++ e.Delta.toList.map (fun s => ("delta", JSONValue.str s))))) ∧
    (∀ (e : ReasoningEncryptedValueEvent B) (p : List (String × JSONValue)),
      baseMarshal e.BaseEvent = .ok p →
      ∃ promoted, (∀ kv ∈ promoted, kv ∈ p) ∧
        e.ToJSON baseMarshal =
          .ok (promoted ++ [("subtype", .str e.Subtype), ("entityId", .str e.EntityID),
                            ("encryptedValue", .str e.EncryptedValue)])) := by
  refine ⟨?_, ?_, ?_, ?_, ?_, ?_, ?_⟩
  · intro e p h
    exact ⟨_, fun kv hkv => (List.mem_filter.1 hkv).1,
      jsonMarshal_of_ok baseMarshal _ _ p h⟩
  · intro e p h
    exact ⟨_, fun kv hkv => (List.mem_filter.1 hkv).1,
      jsonMarshal_of_ok baseMarshal _ _ p h⟩
  · intro e p h
    exact ⟨_, fun kv hkv => (List.mem_filter.1 hkv).1,
      jsonMarshal_of_ok baseMarshal _ _ p h⟩
  · intro e p h
    exact ⟨_, fun kv hkv => (List.mem_filter.1 hkv).1,
      jsonMarshal_of_ok baseMarshal _ _ p h⟩
  · intro e p h
    exact ⟨_, fun kv hkv => (List.mem_filter.1 hkv).1,
      jsonMarshal_of_ok baseMarshal _ _ p h⟩
  · intro e p h
    refine ⟨p.filter (fun kv => !(e.jsonFields.map Field.key).contains kv.1),
      fun kv hkv => (List.mem_filter.1 hkv).1, ?_⟩
    rw [ReasoningMessageChunkEvent.ToJSON, jsonMarshal_of_ok baseMarshal _ _ p h]
    obtain ⟨b, mid, delta⟩ := e
    cases mid <;> cases delta <;> rfl
  · intro e p h
    exact ⟨_, fun kv hkv => (List.mem_filter.1 hkv).1,
      jsonMarshal_of_ok baseMarshal _ _ p h⟩

/-- Witness for C15: an encrypted-value event for a tool call is serialised with the
string "tool-call" under `subtype` and with camelCase keys; the base member under
`messageId` is not hidden here, since this struct declares no such field. -/
theorem toJSON_camelCase_keys_witness :
    ReasoningEncryptedValueEvent.ToJSON sampleBaseMarshal
        ⟨true, "tool-call", "entity-1", "secret"⟩
      = .ok [("type", .str "SAMPLE"), ("messageId", .raw "0"),
             ("subtype", .str "tool-call"), ("entityId", .str "entity-1"),
             ("encryptedValue", .str "secret")] ∧
    ∃ promoted, (∀ kv ∈ promoted, kv ∈ [("type", JSONValue.str "SAMPLE"),
                                        ("messageId", JSONValue.raw "0")]) ∧
      ReasoningEncryptedValueEvent.ToJSON sampleBaseMarshal
          ⟨true, "tool-call", "entity-1", "secret"⟩
        = .ok (promoted ++ [("subtype", .str "tool-call"), ("entityId", .str "entity-1"),
                            ("encryptedValue", .str "secret")]) :=
  ⟨rfl, (toJSON_camelCase_keys sampleBaseMarshal).2.2.2.2.2.2
    ⟨true, "tool-call", "entity-1", "secret"⟩ _ rfl⟩

/-- C20: whenever the base event marshals, ToJSON produces an object, and in the
object of a chunk event the key messageId appears exactly when MessageID is present
and the key delta exactly when Delta is present, a present field being written with
its value even when that is the empty string; the object of each of the other six
event types holds every declared key with its value, the empty string included. -/
theorem toJSON_key_presence {B : Type}
    (baseMarshal : B → Except String (List (String × JSONValue))) :
    (∀ (e : ReasoningMessageChunkEvent B) (p : List (String × JSONValue)),
      baseMarshal e.BaseEvent = .ok p →
      ∃ out, e.ToJSON baseMarshal = .ok out ∧
        (hasKey "messageId" out = true ↔ e.MessageID ≠ none) ∧
        (hasKey "delta" out = true ↔ e.Delta ≠ none) ∧
        (∀ s, e.MessageID = some s → ("messageId", JSONValue.str s) ∈ out) ∧
        (∀ s, e.Delta = some s → ("delta", JSONValue.str s) ∈ out)) ∧
    (∀ (e : ReasoningStartEvent B) (p : List (String × JSONValue)),
      baseMarshal e.BaseEvent = .ok p →
      ∃ out, e.ToJSON baseMarshal = .ok out ∧
        hasKey "messageId" out = true ∧
        ("messageId", JSONValue.str e.MessageID) ∈ out) ∧
    (∀ (e : ReasoningEndEvent B) (p : List (String × JSONValue)),
      baseMarshal e.BaseEvent = .ok p →
      ∃ out, e.ToJSON baseMarshal = .ok out ∧
        hasKey "messageId" out = true ∧
        ("messageId", JSONValue.str e.MessageID) ∈ out) ∧
    (∀ (e : ReasoningMessageStartEvent B) (p : List (String × JSONValue)),
      baseMarshal e.BaseEvent = .ok p →
      ∃ out, e.ToJSON baseMarshal = .ok out ∧
        hasKey "messageId" out = true ∧ hasKey "role" out = true ∧
        ("messageId", JSONValue.str e.MessageID) ∈ out ∧
        ("role", JSONValue.str e.Role) ∈ out) ∧
    (∀ (e : ReasoningMessageContentEvent B) (p : List (String × JSONValue)),
      baseMarshal e.BaseEvent = .ok p →
      ∃ out, e.ToJSON baseMarshal = .ok out ∧
        hasKey "messageId" out = true ∧ hasKey "delta" out = true ∧
        ("messageId", JSONValue.str e.MessageID) ∈ out ∧
        ("delta", JSONValue.str e.Delta) ∈ out) ∧
    (∀ (e : ReasoningMessageEndEvent B) (p : List (String × JSONValue)),
      baseMarshal e.BaseEvent = .ok p →
      ∃ out, e.ToJSON baseMarshal = .ok out ∧
        hasKey "messageId" out = true ∧
        ("messageId", JSONValue.str e.MessageID) ∈ out) ∧
    (∀ (e : ReasoningEncryptedValueEvent B) (p : List (String × JSONValue)),
      baseMarshal e.BaseEvent = .ok p →
      ∃ out, e.ToJSON baseMarshal = .ok out ∧
        hasKey "subtype" out = true ∧ hasKey "entityId" out = true ∧
        hasKey "encryptedValue" out = true ∧
        ("subtype", JSONValue.str e.Subtype) ∈ out ∧
        ("entityId", JSONValue.str e.EntityID) ∈ out ∧
        ("encryptedValue", JSONValue.str e.EncryptedValue) ∈ out) := by
  refine ⟨?_, ?_, ?_, ?_, ?_, ?_, ?_⟩
  · intro e p h
    refine ⟨_, jsonMarshal_of_ok baseMarshal _ _ p h, ?_⟩
    have h1 := hasKey_promoted "messageId" ["messageId", "delta"] p (by decide)
    have h2 := hasKey_promoted "delta" ["messageId", "delta"] p (by decide)
    obtain ⟨b, mid, delta⟩ := e
    simp only [ReasoningMessageChunkEvent.jsonFields, List.map_cons, List.map_nil] at h1 h2 ⊢
    rw [hasKey_append, hasKey_append, h1, h2]
    cases mid <;> cases delta <;>
      simp [Field.members, hasKey]
  · intro e p h
    refine ⟨_, jsonMarshal_of_ok baseMarshal _ _ p h, ?_⟩
    rw [hasKey_append]
    simp [ReasoningStartEvent.jsonFields, Field.members, hasKey]
  · intro e p h
    refine ⟨_, jsonMarshal_of_ok baseMarshal _ _ p h, ?_⟩
    rw [hasKey_append]
    simp [ReasoningEndEvent.jsonFields, Field.members, hasKey]
  · intro e p h
    refine ⟨_, jsonMarshal_of_ok baseMarshal _ _ p h, ?_⟩
    rw [hasKey_append, hasKey_append]
    simp [ReasoningMessageStartEvent.jsonFields, Field.members, hasKey]
  · intro e p h
    refine ⟨_, jsonMarshal_of_ok baseMarshal _ _ p h, ?_⟩
    rw [hasKey_append, hasKey_append]
    simp [ReasoningMessageContentEvent.jsonFields, Field.members, hasKey]
  · intro e p h
    refine ⟨_, jsonMarshal_of_ok baseMarshal _ _ p h, ?_⟩
    rw [hasKey_append]
    simp [ReasoningMessageEndEvent.jsonFields, Field.members, hasKey]
  · intro e p h
    refine ⟨_, jsonMarshal_of_ok baseMarshal _ _ p h, ?_⟩
    rw [hasKey_append, hasKey_append, hasKey_append]
    simp [ReasoningEncryptedValueEvent.jsonFields, Field.members, hasKey]

/-- Witness for C20: the sample base event marshals, so a chunk event with no
messageId and the empty delta is serialised, with the key delta (the empty string
under it) and without the key messageId although the base event offers a member of
that name; and a start event with the empty messageId is serialised with its key. -/
theorem toJSON_key_presence_witness :
    sampleBaseMarshal true = .ok [("type", .str "SAMPLE"), ("messageId", .raw "0")] ∧
    (∃ out, ReasoningMessageChunkEvent.ToJSON sampleBaseMarshal ⟨true, none, some ""⟩
        = .ok out ∧
      hasKey "messageId" out = false ∧ hasKey "delta" out = true ∧
      ("delta", JSONValue.str "") ∈ out) ∧
    (∃ out, ReasoningStartEvent.ToJSON sampleBaseMarshal ⟨true, ""⟩ = .ok out ∧
      hasKey "messageId" out = true ∧ ("messageId", JSONValue.str "") ∈ out) := by
  refine ⟨rfl, ?_, ?_⟩
  · obtain ⟨out, hout, hm, hd, _, hdel⟩ :=
      (toJSON_key_presence sampleBaseMarshal).1 ⟨true, none, some ""⟩ _ rfl
    exact ⟨out, hout, Bool.eq_false_iff.2 (fun h => hm.1 h rfl),
      hd.2 (by simp), hdel "" rfl⟩
  · exact (toJSON_key_presence sampleBaseMarshal).2.1 ⟨true, ""⟩ _ rfl

/-! ## Setters, check order and constructors -/

/-- C17: WithChunkMessageID(id) returns its receiver and, in the event it points to,
makes MessageID present with value id, leaving Delta, the base event and every other
event unchanged; WithChunkDelta(d) does the same for Delta, leaving MessageID alone.
Hence the two setters commute, and of two calls of the same setter the later wins. -/
theorem chunk_setters_frame {B : Type} (store : ChunkStore B) (e : Nat)
    (id id' d d' : String) :
    ((WithChunkMessageID store e id).2 = e ∧
      ((WithChunkMessageID store e id).1 e).MessageID = some id ∧
      ((WithChunkMessageID store e id).1 e).Delta = (store e).Delta ∧
      ((WithChunkMessageID store e id).1 e).BaseEvent = (store e).BaseEvent ∧
      ∀ q, q ≠ e → (WithChunkMessageID store e id).1 q = store q) ∧
    ((WithChunkDelta store e d).2 = e ∧
      ((WithChunkDelta store e d).1 e).Delta = some d ∧
      ((WithChunkDelta store e d).1 e).MessageID = (store e).MessageID ∧
      ((WithChunkDelta store e d).1 e).BaseEvent = (store e).BaseEvent ∧
      ∀ q, q ≠ e → (WithChunkDelta store e d).1 q = store q) ∧
    WithChunkDelta (WithChunkMessageID store e id).1 (WithChunkMessageID store e id).2 d
      = WithChunkMessageID (WithChunkDelta store e d).1 (WithChunkDelta store e d).2 id ∧
    WithChunkMessageID (WithChunkMessageID store e id).1 (WithChunkMessageID store e id).2 id'
      = WithChunkMessageID store e id' ∧
    WithChunkDelta (WithChunkDelta store e d).1 (WithChunkDelta store e d).2 d'
      = WithChunkDelta store e d' := by
  refine ⟨⟨rfl, ?_, ?_, ?_, ?_⟩, ⟨rfl, ?_, ?_, ?_, ?_⟩, ?_, ?_, ?_⟩
  · simp [WithChunkMessageID]
  · simp [WithChunkMessageID]
  · simp [WithChunkMessageID]
  · intro q hq
    simp [WithChunkMessageID, Function.update_noteq hq]
  · simp [WithChunkDelta]
  · simp [WithChunkDelta]
  · simp [WithChunkDelta]
  · intro q hq
    simp [WithChunkDelta, Function.update_noteq hq]
  · simp only [WithChunkMessageID, WithChunkDelta, Function.update_same,
      Function.update_idem]
  · simp only [WithChunkMessageID, Function.update_same, Function.update_idem]
  · simp only [WithChunkDelta, Function.update_same, Function.update_idem]

/-- C18: in every Validate an error of the base event is returned unchanged, whatever
the fields hold.  When the base event validates, the first offending field is the one
named: messageId before role (ReasoningMessageStartEvent), messageId before delta
(ReasoningMessageContentEvent), subtype before entityId before encryptedValue
(ReasoningEncryptedValueEvent); and in the chunk event the error about neither field
being present occurs only when MessageID is absent, an empty present messageId always
giving the error about the empty messageId. -/
theorem validate_check_order {B : Type} (baseValidate : B → Option String) (b : B) :
    (∀ err, baseValidate b = some err →
      (∀ m, ReasoningStartEvent.Validate baseValidate ⟨b, m⟩ = some err) ∧
      (∀ m, ReasoningEndEvent.Validate baseValidate ⟨b, m⟩ = some err) ∧
      (∀ m r, ReasoningMessageStartEvent.Validate baseValidate ⟨b, m, r⟩ = some err) ∧
      (∀ m d, ReasoningMessageContentEvent.Validate baseValidate ⟨b, m, d⟩ = some err) ∧
      (∀ m, ReasoningMessageEndEvent.Validate baseValidate ⟨b, m⟩ = some err) ∧
      (∀ m d, ReasoningMessageChunkEvent.Validate baseValidate ⟨b, m, d⟩ = some err) ∧
      (∀ s i v, ReasoningEncryptedValueEvent.Validate baseValidate ⟨b, s, i, v⟩
        = some err)) ∧
    (baseValidate b = none →
      (∀ r, ReasoningMessageStartEvent.Validate baseValidate ⟨b, "", r⟩ = some
        "ReasoningMessageStartEvent validation failed: messageId field is required") ∧
      (∀ m, m ≠ "" → ReasoningMessageStartEvent.Validate baseValidate ⟨b, m, ""⟩ = some
        "ReasoningMessageStartEvent validation failed: role field is required") ∧
      (∀ d, ReasoningMessageContentEvent.Validate baseValidate ⟨b, "", d⟩ = some
        "ReasoningMessageContentEvent validation failed: messageId field is required") ∧
      (∀ m, m ≠ "" → ReasoningMessageContentEvent.Validate baseValidate ⟨b, m, ""⟩ = some
        "ReasoningMessageContentEvent validation failed: delta field must not be empty") ∧
      (∀ s i v, s ≠ "tool-call" → s ≠ "message" →
        ReasoningEncryptedValueEvent.Validate baseValidate ⟨b, s, i, v⟩ = some
          "ReasoningEncryptedValueEvent validation failed: subtype must be 'tool-call' or 'message'") ∧
      (∀ s v, s = "tool-call" ∨ s = "message" →
        ReasoningEncryptedValueEvent.Validate baseValidate ⟨b, s, "", v⟩ = some
          "ReasoningEncryptedValueEvent validation failed: entityId field is required") ∧
      (∀ s i, s = "tool-call" ∨ s = "message" → i ≠ "" →
        ReasoningEncryptedValueEvent.Validate baseValidate ⟨b, s, i, ""⟩ = some
          "ReasoningEncryptedValueEvent validation failed: encryptedValue field is required") ∧
      (∀ m d, ReasoningMessageChunkEvent.Validate baseValidate ⟨b, m, d⟩ = some
          "ReasoningMessageChunkEvent validation failed: at least one of messageId or delta must be present" →
        m = none) ∧
      (∀ d, ReasoningMessageChunkEvent.Validate baseValidate ⟨b, some "", d⟩ = some
        "ReasoningMessageChunkEvent validation failed: messageId field must not be empty when provided")) := by
  constructor
  · intro err h
    refine ⟨?_, ?_, ?_, ?_, ?_, ?_, ?_⟩
    · intro m
      simp only [ReasoningStartEvent.Validate, h]
    · intro m
      simp only [ReasoningEndEvent.Validate, h]
    · intro m r
      simp only [ReasoningMessageStartEvent.Validate, h]
    · intro m d
      simp only [ReasoningMessageContentEvent.Validate, h]
    · intro m
      simp only [ReasoningMessageEndEvent.Validate, h]
    · intro m d
      simp only [ReasoningMessageChunkEvent.Validate, h]
    · intro s i v
      simp only [ReasoningEncryptedValueEvent.Validate, h]
  · intro h
    refine ⟨?_, ?_, ?_, ?_, ?_, ?_, ?_, ?_, ?_⟩
    · intro r
      simp [ReasoningMessageStartEvent.Validate, h]
    · intro m hm
      simp [ReasoningMessageStartEvent.Validate, h, hm]
    · intro d
      simp [ReasoningMessageContentEvent.Validate, h]
    · intro m hm
      simp [ReasoningMessageContentEvent.Validate, h, hm]
    · intro s i v h1 h2
      simp [ReasoningEncryptedValueEvent.Validate, h, h1, h2,
        ReasoningEncryptedValueSubtypeToolCall, ReasoningEncryptedValueSubtypeMessage]
    · intro s v hs
      rcases hs with hs | hs <;>
        simp [ReasoningEncryptedValueEvent.Validate, h, hs,
          ReasoningEncryptedValueSubtypeToolCall, ReasoningEncryptedValueSubtypeMessage]
    · intro s i hs hi
      rcases hs with hs | hs <;>
        simp [ReasoningEncryptedValueEvent.Validate, h, hs, hi,
          ReasoningEncryptedValueSubtypeToolCall, ReasoningEncryptedValueSubtypeMessage]
    · intro m d hv
      cases m with
      | none => rfl
      | some id =>
        exfalso
        by_cases hid : id = ""
        · simp [ReasoningMessageChunkEvent.Validate, h, hid] at hv
        · simp [ReasoningMessageChunkEvent.Validate, h, hid] at hv
    · intro d
      simp [ReasoningMessageChunkEvent.Validate, h]

/-- Witness for C18: with a failing base event every field is ignored; with a
validating one an event whose fields are all empty is reported for its first field
only. -/
theorem validate_check_order_witness :
    ReasoningEncryptedValueEvent.Validate sampleBaseValidate ⟨false, "", "", ""⟩
      = some "BaseEvent validation failed" ∧
    ReasoningMessageStartEvent.Validate sampleBaseValidate ⟨true, "", ""⟩ = some
      "ReasoningMessageStartEvent validation failed: messageId field is required" ∧
    ReasoningMessageChunkEvent.Validate sampleBaseValidate ⟨true, some "", none⟩ = some
      "ReasoningMessageChunkEvent validation failed: messageId field must not be empty when provided" :=
  ⟨((validate_check_order sampleBaseValidate false).1 _ rfl).2.2.2.2.2.2 "" "" "",
   ((validate_check_order sampleBaseValidate true).2 rfl).1 "",
   ((validate_check_order sampleBaseValidate true).2 rfl).2.2.2.2.2.2.2.2 none⟩

/-- Witness for C17: on a store of empty chunk events, setting the messageId and then
the delta of the event at pointer 3 gives the event ("m1", "d1") there, returns the
pointer 3 and leaves the event at pointer 4 empty. -/
theorem chunk_setters_frame_witness :
    (WithChunkDelta (WithChunkMessageID sampleStore 3 "m1").1
        (WithChunkMessageID sampleStore 3 "m1").2 "d1").2 = 3 ∧
    ((WithChunkDelta (WithChunkMessageID sampleStore 3 "m1").1
        (WithChunkMessageID sampleStore 3 "m1").2 "d1").1 3).MessageID = some "m1" ∧
    ((WithChunkDelta (WithChunkMessageID sampleStore 3 "m1").1
        (WithChunkMessageID sampleStore 3 "m1").2 "d1").1 3).Delta = some "d1" ∧
    (WithChunkMessageID sampleStore 3 "m1").1 4 = sampleStore 4 :=
  ⟨rfl, rfl, rfl, (chunk_setters_frame sampleStore 3 "m1" "" "" "").1.2.2.2.2 4 (by decide)⟩

/-- C19: each of the seven constructors stores every argument unchanged in the field
of the same name (an absent chunk argument stays absent) and builds its base event
from that event's own type tag; so the constructed event validates exactly when that
base event validates and the arguments satisfy the field rules of the type. -/
theorem constructors_store_arguments {B T : Type} (NewBaseEvent : T → B)
    (tags : EventTypes T) (baseValidate : B → Option String) :
    (∀ messageID : String,
      (NewReasoningStartEvent NewBaseEvent tags messageID).BaseEvent
        = NewBaseEvent tags.EventTypeReasoningStart ∧
      (NewReasoningStartEvent NewBaseEvent tags messageID).MessageID = messageID ∧
      ((NewReasoningStartEvent NewBaseEvent tags messageID).Validate baseValidate = none ↔
        (baseValidate (NewBaseEvent tags.EventTypeReasoningStart) = none ∧
          messageID ≠ ""))) ∧
    (∀ messageID : String,
      (NewReasoningEndEvent NewBaseEvent tags messageID).BaseEvent
        = NewBaseEvent tags.EventTypeReasoningEnd ∧
      (NewReasoningEndEvent NewBaseEvent tags messageID).MessageID = messageID ∧
      ((NewReasoningEndEvent NewBaseEvent tags messageID).Validate baseValidate = none ↔
        (baseValidate (NewBaseEvent tags.EventTypeReasoningEnd) = none ∧
          messageID ≠ ""))) ∧
    (∀ messageID role : String,
      (NewReasoningMessageStartEvent NewBaseEvent tags messageID role).BaseEvent
        = NewBaseEvent tags.EventTypeReasoningMessageStart ∧
      (NewReasoningMessageStartEvent NewBaseEvent tags messageID role).MessageID
        = messageID ∧
      (NewReasoningMessageStartEvent NewBaseEvent tags messageID role).Role = role ∧
      ((NewReasoningMessageStartEvent NewBaseEvent tags messageID role).Validate
          baseValidate = none ↔
        (baseValidate (NewBaseEvent tags.EventTypeReasoningMessageStart) = none ∧
          messageID ≠ "" ∧ role ≠ ""))) ∧
    (∀ messageID delta : String,
      (NewReasoningMessageContentEvent NewBaseEvent tags messageID delta).BaseEvent
        = NewBaseEvent tags.EventTypeReasoningMessageContent ∧
      (NewReasoningMessageContentEvent NewBaseEvent tags messageID delta).MessageID
        = messageID ∧
      (NewReasoningMessageContentEvent NewBaseEvent tags messageID delta).Delta = delta ∧
      ((NewReasoningMessageContentEvent NewBaseEvent tags messageID delta).Validate
          baseValidate = none ↔
        (baseValidate (NewBaseEvent tags.EventTypeReasoningMessageContent) = none ∧
          messageID ≠ "" ∧ delta ≠ ""))) ∧
    (∀ messageID : String,
      (NewReasoningMessageEndEvent NewBaseEvent tags messageID).BaseEvent
        = NewBaseEvent tags.EventTypeReasoningMessageEnd ∧
      (NewReasoningMessageEndEvent NewBaseEvent tags messageID).MessageID = messageID ∧
      ((NewReasoningMessageEndEvent NewBaseEvent tags messageID).Validate baseValidate
          = none ↔
        (baseValidate (NewBaseEvent tags.EventTypeReasoningMessageEnd) = none ∧
          messageID ≠ ""))) ∧
    (∀ messageID delta : Option String,
      (NewReasoningMessageChunkEvent NewBaseEvent tags messageID delta).BaseEvent
        = NewBaseEvent tags.EventTypeReasoningMessageChunk ∧
      (NewReasoningMessageChunkEvent NewBaseEvent tags messageID delta).MessageID
        = messageID ∧
      (NewReasoningMessageChunkEvent NewBaseEvent tags messageID delta).Delta = delta ∧
      ((NewReasoningMessageChunkEvent NewBaseEvent tags messageID delta).Validate
          baseValidate = none ↔
        (baseValidate (NewBaseEvent tags.EventTypeReasoningMessageChunk) = none ∧
          ¬ (messageID = none ∧ delta = none) ∧ messageID ≠ some ""))) ∧
    (∀ (subtype : ReasoningEncryptedValueSubtype) (entityID encryptedValue : String),
      (NewReasoningEncryptedValueEvent NewBaseEvent tags subtype entityID
          encryptedValue).BaseEvent
        = NewBaseEvent tags.EventTypeReasoningEncryptedValue ∧
      (NewReasoningEncryptedValueEvent NewBaseEvent tags subtype entityID
          encryptedValue).Subtype = subtype ∧
      (NewReasoningEncryptedValueEvent NewBaseEvent tags subtype entityID
          encryptedValue).EntityID = entityID ∧
      (NewReasoningEncryptedValueEvent NewBaseEvent tags subtype entityID
          encryptedValue).EncryptedValue = encryptedValue ∧
      ((NewReasoningEncryptedValueEvent NewBaseEvent tags subtype entityID
          encryptedValue).Validate baseValidate = none ↔
        (baseValidate (NewBaseEvent tags.EventTypeReasoningEncryptedValue) = none ∧
          (subtype = "tool-call" ∨ subtype = "message") ∧ entityID ≠ "" ∧
          encryptedValue ≠ ""))) := by
  refine ⟨?_, ?_, ?_, ?_, ?_, ?_, ?_⟩
  · intro m
    refine ⟨rfl, rfl, ?_⟩
    cases hb : baseValidate (NewBaseEvent tags.EventTypeReasoningStart) <;>
      simp [NewReasoningStartEvent, ReasoningStartEvent.Validate, hb]
  · intro m
    refine ⟨rfl, rfl, ?_⟩
    cases hb : baseValidate (NewBaseEvent tags.EventTypeReasoningEnd) <;>
      simp [NewReasoningEndEvent, ReasoningEndEvent.Validate, hb]
  · intro m r
    refine ⟨rfl, rfl, rfl, ?_⟩
    cases hb : baseValidate (NewBaseEvent tags.EventTypeReasoningMessageStart) <;>
      by_cases h1 : m = "" <;> by_cases h2 : r = "" <;>
      simp [NewReasoningMessageStartEvent, ReasoningMessageStartEvent.Validate, hb, h1, h2]
  · intro m d
    refine ⟨rfl, rfl, rfl, ?_⟩
    cases hb : baseValidate (NewBaseEvent tags.EventTypeReasoningMessageContent) <;>
      by_cases h1 : m = "" <;> by_cases h2 : d = "" <;>
      simp [NewReasoningMessageContentEvent, ReasoningMessageContentEvent.Validate, hb,
        h1, h2]
  · intro m
    refine ⟨rfl, rfl, ?_⟩
    cases hb : baseValidate (NewBaseEvent tags.EventTypeReasoningMessageEnd) <;>
      simp [NewReasoningMessageEndEvent, ReasoningMessageEndEvent.Validate, hb]
  · intro m d
    refine ⟨rfl, rfl, rfl, ?_⟩
    cases hb : baseValidate (NewBaseEvent tags.EventTypeReasoningMessageChunk) <;>
      cases m <;> cases d <;>
      simp [NewReasoningMessageChunkEvent, ReasoningMessageChunkEvent.Validate, hb]
  · intro st eid ev
    refine ⟨rfl, rfl, rfl, rfl, ?_⟩
    cases hb : baseValidate (NewBaseEvent tags.EventTypeReasoningEncryptedValue) <;>
      by_cases h1 : st = "tool-call" <;> by_cases h2 : st = "message" <;>
      by_cases h3 : eid = "" <;> by_cases h4 : ev = "" <;>
      simp [NewReasoningEncryptedValueEvent, ReasoningEncryptedValueEvent.Validate, hb,
        h1, h2, h3, h4, ReasoningEncryptedValueSubtypeToolCall,
        ReasoningEncryptedValueSubtypeMessage]

/-- Witness for C19: with sample tags the start-message constructor keeps "m1" as the
message id and "assistant" as the role, takes the tag of its own type, and the event
validates. -/
theorem constructors_store_arguments_witness :
    (NewReasoningMessageStartEvent sampleNewBaseEvent sampleTags "m1" "assistant").MessageID
      = "m1" ∧
    (NewReasoningMessageStartEvent sampleNewBaseEvent sampleTags "m1" "assistant").Role
      = "assistant" ∧
    (NewReasoningMessageStartEvent sampleNewBaseEvent sampleTags "m1" "assistant").BaseEvent
      = sampleNewBaseEvent "EventTypeReasoningMessageStart" ∧
    (NewReasoningMessageStartEvent sampleNewBaseEvent sampleTags "m1"
      "assistant").Validate sampleBaseValidate = none :=
  have h := (constructors_store_arguments sampleNewBaseEvent sampleTags
    sampleBaseValidate).2.2.1 "m1" "assistant"
  ⟨h.2.1, h.2.2.1, h.1, h.2.2.2.2 ⟨by decide, by decide, by decide⟩⟩

end events

/-! # Theorems about message and run-input decoding -/

namespace types

/-- A part is valid exactly when a text part has text and a binary part has a mimeType
and a source. -/
theorem InputContent.isValid_iff (c : InputContent) :
    c.isValid = true ↔
      ((c.Type' = .text → c.Text ≠ "") ∧
       (c.Type' = .binary → c.MimeType ≠ "" ∧ (c.URL ≠ "" ∨ c.Data ≠ ""))) := by
  obtain ⟨t, text, mime, url, data, fname⟩ := c
  cases t
  · by_cases h : text = "" <;> simp [InputContent.isValid, InputContent.validate, h]
  · by_cases h1 : mime = "" <;> by_cases h2 : url = "" <;> by_cases h3 : data = "" <;>
      simp [InputContent.isValid, InputContent.validate, h1, h2, h3]

/-- C6: ContentInputContents returns parts exactly when the role is user and the
content is a list of InputContent parts each of which is valid (a text part has text,
a binary part has a mimeType and a non-empty url or inline data), and the result is
that very list; it is absent for plain-string content and for a list holding a binary
part without mimeType or without any source.  The two-part payload of the test decodes
to a message whose projection is its two parts in order. -/
theorem contentInputContents_spec (m : Message) :
    (∀ parts : List InputContent, m.ContentInputContents = some parts ↔
      (m.Role = .user ∧ m.Content = .parts parts ∧
        ∀ p ∈ parts, (p.Type' = .text → p.Text ≠ "") ∧
          (p.Type' = .binary → p.MimeType ≠ "" ∧ (p.URL ≠ "" ∨ p.Data ≠ "")))) ∧
    (∀ s : String, m.Content = .value (.str s) → m.ContentInputContents = none) ∧
    (∀ (ps : List InputContent) (p : InputContent), m.Content = .parts ps → p ∈ ps →
      p.Type' = .binary → (p.MimeType = "" ∨ (p.URL = "" ∧ p.Data = "")) →
      m.ContentInputContents = none) ∧
    (∃ decoded : Message, decodeMessage twoPartPayload = .ok decoded ∧
      decoded.ContentInputContents =
        some [{ Type' := .text, Text := "hi" },
              { Type' := .binary, MimeType := "image/png",
                URL := "https://example.com/test.png" }]) := by
  have hall : ∀ ps : List InputContent, ps.all InputContent.isValid = true ↔
      ∀ p ∈ ps, (p.Type' = .text → p.Text ≠ "") ∧
        (p.Type' = .binary → p.MimeType ≠ "" ∧ (p.URL ≠ "" ∨ p.Data ≠ "")) := by
    intro ps
    rw [List.all_eq_true]
    exact forall₂_congr (fun p _ => InputContent.isValid_iff p)
  refine ⟨?_, ?_, ?_, ⟨_, rfl, rfl⟩⟩
  · intro parts
    obtain ⟨id, role, content, at', tcs, tcid, err, ec, ev⟩ := m
    cases role <;> cases content <;> simp [Message.ContentInputContents]
    rename_i ps
    constructor
    · rintro ⟨hv, rfl⟩
      exact ⟨rfl, fun p hp => (InputContent.isValid_iff p).1 (hv p hp)⟩
    · rintro ⟨rfl, hp⟩
      exact ⟨fun p h => (InputContent.isValid_iff p).2 (hp p h), rfl⟩
  · intro s hs
    simp [Message.ContentInputContents, hs]
    cases m.Role <;> rfl
  · intro ps p hc hp ht hbad
    have hv : ¬ ps.all InputContent.isValid = true := by
      intro hv
      have := ((hall ps).1 hv p hp).2 ht
      rcases hbad with h | ⟨h1, h2⟩
      · exact this.1 h
      · rcases this.2 with h | h
        · exact h h1
        · exact h h2
    simp only [Message.ContentInputContents, hc, if_neg hv]
    cases m.Role <;> rfl

/-- Witness for C6: the four hand-built messages of TestMessageContentInputContents:
plain content, a binary part without source, a binary part without mimeType (all
absent), and a binary part with mimeType and url (present, one part). -/
theorem contentInputContents_spec_witness :
    Message.ContentInputContents { Role := .user, Content := .value (.str "plain") } = none ∧
    Message.ContentInputContents
      { Role := .user,
        Content := .parts [{ Type' := .binary, MimeType := "image/png" }] } = none ∧
    Message.ContentInputContents
      { Role := .user,
        Content := .parts [{ Type' := .binary, URL := "https://example.com/test.png" }] }
      = none ∧
    Message.ContentInputContents
      { Role := .user,
        Content := .parts [{ Type' := .binary, MimeType := "image/png",
                             URL := "https://example.com/test.png" }] }
      = some [{ Type' := .binary, MimeType := "image/png",
                URL := "https://example.com/test.png" }] :=
  ⟨(contentInputContents_spec _).2.1 "plain" rfl,
   (contentInputContents_spec _).2.2.1 _ { Type' := .binary, MimeType := "image/png" } rfl
     (List.mem_singleton.2 rfl) rfl (Or.inr ⟨rfl, rfl⟩),
   (contentInputContents_spec _).2.2.1 _
     { Type' := .binary, URL := "https://example.com/test.png" } rfl
     (List.mem_singleton.2 rfl) rfl (Or.inl rfl),
   ((contentInputContents_spec _).1 _).2 ⟨rfl, rfl, by
     intro p hp
     rw [List.mem_singleton.1 hp]
     exact ⟨fun h => (nomatch h), fun _ => ⟨by decide, Or.inl (by decide)⟩⟩⟩⟩

/-- C7: ContentString returns s exactly when the role is not activity and the content
is the string s; it is absent for every message whose content is not a string and for
every activity message, whatever its content.  The projection is a total function, so
it never fails. -/
theorem contentString_spec (m : Message) :
    (∀ s : String, m.ContentString = some s ↔
      (m.Role ≠ .activity ∧ m.Content = .value (.str s))) ∧
    ((∀ s : String, m.Content ≠ .value (.str s)) → m.ContentString = none) ∧
    (m.Role = .activity → m.ContentString = none) := by
  obtain ⟨id, role, content, at', tcs, tcid, err, ec, ev⟩ := m
  refine ⟨?_, ?_, ?_⟩
  · intro s
    cases role <;> cases content <;> simp [Message.ContentString]
    all_goals (rename_i v; cases v <;> simp)
  · intro h
    cases role <;> cases content <;> simp [Message.ContentString]
  · intro h
    simp only at h
    subst h
    rfl

/-- Witness for C7: the three messages of TestMessageContentString. -/
theorem contentString_spec_witness :
    Message.ContentString { Role := .assistant, Content := .value (.str "hello") }
      = some "hello" ∧
    Message.ContentString { Role := .assistant, Content := .value (.arr []) } = none ∧
    Message.ContentString { Role := .activity, Content := .value (.str "hello") } = none :=
  ⟨((contentString_spec _).1 "hello").2 ⟨by decide, rfl⟩,
   (contentString_spec _).2.1 (fun s h => by cases h),
   (contentString_spec _).2.2 rfl⟩

/-- C8: ContentActivity returns the object exactly when the role is activity and the
content is a key-value object; it is absent for an activity message whose content is a
plain string and for every message whose role is not activity, also when its content
is an object.  The activity payload of the test decodes to a message whose projection
is the object with the single member step = 1. -/
theorem contentActivity_spec (m : Message) :
    (∀ o : List (String × JSON), m.ContentActivity = some o ↔
      (m.Role = .activity ∧ m.Content = .value (.obj o))) ∧
    (∀ s : String, m.Role = .activity → m.Content = .value (.str s) →
      m.ContentActivity = none) ∧
    (∀ o : List (String × JSON), m.Role ≠ .activity → m.Content = .value (.obj o) →
      m.ContentActivity = none) ∧
    (∃ decoded : Message, decodeMessage activityPayload = .ok decoded ∧
      decoded.ContentActivity = some [("step", .num "1")]) := by
  obtain ⟨id, role, content, at', tcs, tcid, err, ec, ev⟩ := m
  refine ⟨?_, ?_, ?_, ⟨_, rfl, rfl⟩⟩
  · intro o
    cases role <;> cases content <;> simp [Message.ContentActivity]
    rename_i v
    cases v <;> simp
  · intro s hr hc
    simp only at hr hc
    subst hr hc
    rfl
  · intro o hr hc
    simp only at hr hc
    subst hc
    cases role <;> first | rfl | exact absurd rfl hr

/-- Witness for C8: the two hand-built messages of TestMessageContentActivity. -/
theorem contentActivity_spec_witness :
    Message.ContentActivity { Role := .activity, Content := .value (.str "plain") } = none ∧
    Message.ContentActivity
      { Role := .user, Content := .value (.obj [("step", .num "1")]) } = none :=
  ⟨(contentActivity_spec _).2.1 "plain" rfl rfl,
   (contentActivity_spec _).2.2.1 [("step", .num "1")] (by decide) rfl⟩

/-- C9: decoding a binary InputContent fails whenever mimeType is absent or empty under
both its spellings, and fails whenever url and inline data are both absent or empty; it
succeeds, keeping mimeType and url, when both are non-empty (mimeType under either
spelling), whether or not a filename is given.  The two failing payloads of the tests
fail, the first for its missing source and the second for its missing mimeType, and
the snake_case payload of the test decodes. -/
theorem decodeInputContent_binary (members : List (String × JSON))
    (htype : lookupKey "type" members = some (.str "binary")) :
    (((lookupKey "mimeType" members = none ∨
          lookupKey "mimeType" members = some (.str "")) ∧
        (lookupKey "mime_type" members = none ∨
          lookupKey "mime_type" members = some (.str ""))) →
      ∃ e, decodeInputContent (.obj members) = .error e) ∧
    (((lookupKey "url" members = none ∨ lookupKey "url" members = some (.str "")) ∧
        (lookupKey "data" members = none ∨ lookupKey "data" members = some (.str ""))) →
      ∃ e, decodeInputContent (.obj members) = .error e) ∧
    (∀ mime url : String, mime ≠ "" → url ≠ "" →
      (lookupKey "mimeType" members = some (.str mime) ∨
        (lookupKey "mimeType" members = none ∧
          lookupKey "mime_type" members = some (.str mime))) →
      lookupKey "url" members = some (.str url) →
      ∃ c, decodeInputContent (.obj members) = .ok c ∧ c.Type' = .binary ∧
        c.MimeType = mime ∧ c.URL = url ∧
        c.Filename = optionalString (lookupKey "filename" members)) ∧
    decodeInputContent (.obj [("type", .str "binary"), ("mimeType", .str "image/png")])
      = .error .MissingContentSource ∧
    decodeInputContent
      (.obj [("type", .str "binary"), ("url", .str "https://example.com/test.png")])
      = .error (.MissingRequiredField "mimeType") ∧
    decodeInputContent
      (.obj [("type", .str "binary"), ("mime_type", .str "image/png"),
             ("url", .str "https://example.com/test.png"), ("filename", .str "test.png")])
      = .ok { Type' := .binary, MimeType := "image/png",
              URL := "https://example.com/test.png", Filename := "test.png" } := by
  have hne : ¬ ("binary" = "text") := by decide
  refine ⟨?_, ?_, ?_, rfl, rfl, rfl⟩
  · rintro ⟨hc, hs⟩
    rcases hc with hc | hc <;> rcases hs with hs | hs <;>
      simp [decodeInputContent, membersOf, htype, requireString, requireNonEmpty,
        decodeField, hc, hs]
  · rintro ⟨hu, hd⟩
    simp only [decodeInputContent, membersOf, htype, requireString, if_neg hne, if_true]
    cases hm : requireNonEmpty "mimeType" (decodeField members "mimeType" "mime_type") with
    | error e => exact ⟨e, rfl⟩
    | ok mime =>
      refine ⟨.MissingContentSource, ?_⟩
      rcases hu with hu | hu <;> rcases hd with hd | hd <;>
        simp [hu, hd, optionalString]
  · intro mime url hmime hurl hm hu
    have hfield : decodeField members "mimeType" "mime_type" = some (.str mime) := by
      rcases hm with hm | ⟨hm1, hm2⟩
      · simp [decodeField, hm]
      · simp [decodeField, hm1, hm2]
    simp [decodeInputContent, membersOf, htype, requireString, requireNonEmpty, hfield,
      hmime, hu, hurl, optionalString]

/-- Witness for C9: the snake_case payload of TestInputContentUnmarshalSnakeCase has a
non-empty mimeType (under its snake_case spelling) and url, so it decodes to a binary
part that keeps both. -/
theorem decodeInputContent_binary_witness :
    ∃ c, decodeInputContent
      (.obj [("type", .str "binary"), ("mime_type", .str "image/png"),
             ("url", .str "https://example.com/test.png"), ("filename", .str "test.png")])
        = .ok c ∧ c.Type' = .binary ∧ c.MimeType = "image/png" ∧
      c.URL = "https://example.com/test.png" ∧ c.Filename = "test.png" :=
  (decodeInputContent_binary
    [("type", .str "binary"), ("mime_type", .str "image/png"),
     ("url", .str "https://example.com/test.png"), ("filename", .str "test.png")]
    rfl).2.2.1 "image/png" "https://example.com/test.png" (by decide) (by decide)
    (Or.inr ⟨rfl, rfl⟩) rfl

/-! ## The two spellings decode alike -/

/-- Distinct aliased fields have distinct snake_case spellings. -/
theorem aliasTable_snake_injective :
    ∀ p ∈ aliasTable, ∀ q ∈ aliasTable, p.2 = q.2 → p.1 = q.1 := by
  decide

/-- No camelCase spelling of the table is also a snake_case spelling. -/
theorem aliasTable_camel_ne_snake :
    ∀ p ∈ aliasTable, ∀ q ∈ aliasTable, p.1 ≠ q.2 := by
  decide

/-- A key is either kept by `snakeKey` and not aliased, or it is the camelCase
spelling of an entry of the table and renamed to that entry's snake_case spelling. -/
theorem snakeKey_cases (k : String) :
    (snakeKey k = k ∧ ∀ p ∈ aliasTable, p.1 ≠ k) ∨
    (∃ p ∈ aliasTable, p.1 = k ∧ snakeKey k = p.2) := by
  unfold snakeKey
  cases h : aliasTable.find? (fun p => p.1 = k) with
  | none =>
    left
    refine ⟨rfl, fun p hp => ?_⟩
    have := List.find?_eq_none.1 h p hp
    simpa using this
  | some p =>
    right
    refine ⟨p, List.mem_of_find?_eq_some h, ?_, rfl⟩
    have := List.find?_some h
    simpa using this

/-- The snake_case spelling of a table entry is a snake key. -/
theorem isSnakeKey_of_mem (p : String × String) (hp : p ∈ aliasTable) :
    isSnakeKey p.2 = true := by
  unfold isSnakeKey
  rw [List.any_eq_true]
  exact ⟨p, hp, by simp⟩

/-- A key that is neither respelled nor a snake_case spelling is met after renaming
exactly where it stood before. -/
theorem snakeKey_eq_plain (k t : String) (ht : snakeKey t = t)
    (hs : isSnakeKey t = false) : snakeKey k = t ↔ k = t := by
  constructor
  · intro h
    rcases snakeKey_cases k with ⟨hk, _⟩ | ⟨p, hp, _, hk⟩
    · rw [← hk, h]
    · rw [hk] at h
      rw [← h, isSnakeKey_of_mem p hp] at hs
      cases hs
  · intro h
    rw [h, ht]

/-- No key is renamed to a key that is itself respelled. -/
theorem snakeKey_ne_camel (k c : String) (hc : snakeKey c ≠ c) : snakeKey k ≠ c := by
  intro h
  rcases snakeKey_cases c with ⟨hc', _⟩ | ⟨q, hq, hq1, _⟩
  · exact hc hc'
  · rcases snakeKey_cases k with ⟨hk, _⟩ | ⟨p, hp, _, hk⟩
    · rw [hk] at h
      rw [h] at hk
      exact hc hk
    · rw [hk] at h
      exact aliasTable_camel_ne_snake q hq p hp (by rw [hq1, h])

/-- Among the keys that are not snake_case spellings, only an aliased key itself is
renamed to its snake_case spelling. -/
theorem snakeKey_eq_snake (k c : String) (hc : snakeKey c ≠ c)
    (hk : isSnakeKey k = false) : snakeKey k = snakeKey c ↔ k = c := by
  constructor
  · intro h
    rcases snakeKey_cases c with ⟨hc', _⟩ | ⟨q, hq, hq1, hq2⟩
    · exact absurd hc' hc
    · rcases snakeKey_cases k with ⟨hk', _⟩ | ⟨p, hp, hp1, hp2⟩
      · rw [hk', hq2] at h
        rw [h, isSnakeKey_of_mem q hq] at hk
        cases hk
      · rw [hp2, hq2] at h
        rw [← hp1, ← hq1]
        exact aliasTable_snake_injective p hp q hq h
  · intro h
    rw [h]

/-- Looking up a key that has one spelling: the renamed object holds under it the
rewritten value of the original object. -/
theorem lookupKey_rename_plain (inner : String → JSON → JSON)
    (members : List (String × JSON)) (t : String) (ht : snakeKey t = t)
    (hs : isSnakeKey t = false) :
    lookupKey t (renameMembers inner members) = (lookupKey t members).map (inner t) := by
  induction members with
  | nil => rfl
  | cons kv rest ih =>
    obtain ⟨k, v⟩ := kv
    unfold renameMembers at ih ⊢
    simp only [List.map_cons, lookupKey]
    by_cases hk : k = t
    · rw [if_pos hk, if_pos ((snakeKey_eq_plain k t ht hs).2 hk), hk]
      rfl
    · rw [if_neg hk, if_neg (fun h => hk ((snakeKey_eq_plain k t ht hs).1 h)), ih]

/-- The renamed object has no member under the camelCase spelling of an aliased
field. -/
theorem lookupKey_rename_camel (inner : String → JSON → JSON)
    (members : List (String × JSON)) (c : String) (hc : snakeKey c ≠ c) :
    lookupKey c (renameMembers inner members) = none := by
  induction members with
  | nil => rfl
  | cons kv rest ih =>
    unfold renameMembers at ih ⊢
    simp only [List.map_cons, lookupKey]
    rw [if_neg (snakeKey_ne_camel kv.1 c hc), ih]

/-- An object without snake_case keys has no member under a snake_case spelling. -/
theorem lookupKey_snake_none (members : List (String × JSON)) (s : String)
    (hs : isSnakeKey s = true) (hno : ∀ kv ∈ members, isSnakeKey kv.1 = false) :
    lookupKey s members = none := by
  induction members with
  | nil => rfl
  | cons kv rest ih =>
    obtain ⟨k, v⟩ := kv
    simp only [lookupKey]
    have hk : k ≠ s := by
      intro h
      have := hno (k, v) (List.mem_cons_self _ _)
      simp only [h, hs] at this
      cases this
    rw [if_neg hk]
    exact ih (fun kv h => hno kv (List.mem_cons_of_mem _ h))

/-- Under the snake_case spelling the renamed object holds the rewritten value that
the original, written without snake_case keys, holds under the camelCase spelling. -/
theorem lookupKey_rename_snake (inner : String → JSON → JSON)
    (members : List (String × JSON)) (c : String) (hc : snakeKey c ≠ c)
    (hno : ∀ kv ∈ members, isSnakeKey kv.1 = false) :
    lookupKey (snakeKey c) (renameMembers inner members)
      = (lookupKey c members).map (inner c) := by
  induction members with
  | nil => rfl
  | cons kv rest ih =>
    obtain ⟨k, v⟩ := kv
    have hk : isSnakeKey k = false := hno (k, v) (List.mem_cons_self _ _)
    have ih' := ih (fun kv h => hno kv (List.mem_cons_of_mem _ h))
    unfold renameMembers at ih' ⊢
    simp only [List.map_cons, lookupKey]
    by_cases hkc : k = c
    · rw [if_pos hkc, if_pos ((snakeKey_eq_snake k c hc hk).2 hkc), hkc]
      rfl
    · rw [if_neg hkc, if_neg (fun h => hkc ((snakeKey_eq_snake k c hc hk).1 h)), ih']

/-- The field-alias decoder reads from the renamed object the rewritten value it reads
from the original, when the original is written without snake_case keys. -/
theorem decodeField_rename (inner : String → JSON → JSON)
    (members : List (String × JSON)) (c s : String) (hs : snakeKey c = s) (hne : s ≠ c)
    (hno : ∀ kv ∈ members, isSnakeKey kv.1 = false) :
    decodeField (renameMembers inner members) c s
      = (decodeField members c s).map (inner c) := by
  have hc : snakeKey c ≠ c := by rw [hs]; exact hne
  have hsnake : isSnakeKey s = true := by
    rcases snakeKey_cases c with ⟨h, _⟩ | ⟨p, hp, _, h⟩
    · exact absurd h hc
    · rw [← hs, h]
      exact isSnakeKey_of_mem p hp
  unfold decodeField
  rw [lookupKey_rename_camel inner members c hc, ← hs,
    lookupKey_rename_snake inner members c hc hno, hs,
    lookupKey_snake_none members s hsnake hno]
  cases lookupKey c members <;> rfl

/-- An object written in camelCase has no snake_case key. -/
theorem membersCamel_keys (inner : String → JSON → Bool) (members : List (String × JSON))
    (h : membersCamel inner members = true) :
    ∀ kv ∈ members, isSnakeKey kv.1 = false := by
  intro kv hkv
  unfold membersCamel at h
  have := List.all_eq_true.1 h kv hkv
  simp only [Bool.and_eq_true, Bool.not_eq_true'] at this
  exact this.1

/-- In an object written in camelCase, the value found under a key is written in
camelCase too. -/
theorem membersCamel_lookup (inner : String → JSON → Bool)
    (members : List (String × JSON)) (h : membersCamel inner members = true)
    (k : String) (v : JSON) (hv : lookupKey k members = some v) : inner k v = true := by
  induction members with
  | nil => cases hv
  | cons kv rest ih =>
    obtain ⟨k', v'⟩ := kv
    unfold membersCamel at h ih
    simp only [List.all_cons, Bool.and_eq_true, Bool.not_eq_true'] at h
    simp only [lookupKey] at hv
    by_cases hk : k' = k
    · rw [if_pos hk] at hv
      cases hv
      rw [← hk]
      exact h.1.2
    · rw [if_neg hk] at hv
      exact ih h.2 hv

/-- Decoding a list is unchanged by a rewriting of its elements that no element's
decoding notices. -/
theorem decodeAll_map_congr {α : Type} (f : JSON → Except DecodeError α) (g : JSON → JSON)
    (xs : List JSON) (h : ∀ x ∈ xs, f (g x) = f x) :
    decodeAll f (xs.map g) = decodeAll f xs := by
  induction xs with
  | nil => rfl
  | cons x rest ih =>
    simp only [List.map_cons, decodeAll]
    rw [h x (List.mem_cons_self _ _), ih (fun y hy => h y (List.mem_cons_of_mem _ hy))]

/-- An InputContent payload written in camelCase decodes alike in both spellings. -/
theorem decodeInputContent_partToSnake (raw : JSON) (h : partCamel raw = true) :
    decodeInputContent (partToSnake raw) = decodeInputContent raw := by
  cases raw with
  | obj members =>
    have hno := membersCamel_keys (fun _ _ => true) members h
    simp only [partToSnake, decodeInputContent, membersOf]
    rw [lookupKey_rename_plain _ members "type" (by decide) (by decide),
      lookupKey_rename_plain _ members "text" (by decide) (by decide),
      lookupKey_rename_plain _ members "url" (by decide) (by decide),
      lookupKey_rename_plain _ members "data" (by decide) (by decide),
      lookupKey_rename_plain _ members "filename" (by decide) (by decide),
      decodeField_rename _ members "mimeType" "mime_type" (by decide) (by decide) hno]
    simp only [Option.map_id']
  | _ => rfl

/-- Only the value under `content` is rewritten inside a message. -/
theorem messageInner_of_ne (k : String) (hk : k ≠ "content") :
    messageInner k = fun v => v := by
  funext v
  simp only [messageInner, if_neg hk]

/-- Only the value under `messages` is rewritten inside a run input. -/
theorem runInputInner_of_ne (k : String) (hk : k ≠ "messages") :
    runInputInner k = fun v => v := by
  funext v
  simp only [runInputInner, if_neg hk]

/-- The content resolver reads the same content from both spellings. -/
theorem resolveContent_messageInner (role : Role) (raw : Option JSON)
    (h : ∀ v, raw = some v → messageInnerCamel "content" v = true) :
    resolveContent role (raw.map (messageInner "content")) = resolveContent role raw := by
  cases raw with
  | none => rfl
  | some v =>
    have hv := h v rfl
    cases v with
    | arr items =>
      have hitems : ∀ x ∈ items, decodeInputContent (partToSnake x) = decodeInputContent x := by
        intro x hx
        apply decodeInputContent_partToSnake
        simp only [messageInnerCamel, if_true] at hv
        exact List.all_eq_true.1 hv x hx
      cases role <;>
        simp only [Option.map_some', messageInner, if_true, resolveContent,
          decodeAll_map_congr decodeInputContent partToSnake items hitems]
    | _ => simp only [Option.map_some', messageInner, if_true]

/-- A Message payload written in camelCase decodes alike in both spellings. -/
theorem decodeMessage_messageToSnake (raw : JSON) (h : messageCamel raw = true) :
    decodeMessage (messageToSnake raw) = decodeMessage raw := by
  cases raw with
  | obj members =>
    have hno := membersCamel_keys messageInnerCamel members h
    have hcontent : ∀ v, lookupKey "content" members = some v →
        messageInnerCamel "content" v = true :=
      fun v hv => membersCamel_lookup messageInnerCamel members h "content" v hv
    simp only [messageToSnake, decodeMessage, membersOf]
    rw [lookupKey_rename_plain _ members "id" (by decide) (by decide),
      lookupKey_rename_plain _ members "role" (by decide) (by decide),
      lookupKey_rename_plain _ members "content" (by decide) (by decide),
      lookupKey_rename_plain _ members "error" (by decide) (by decide),
      decodeField_rename _ members "toolCallId" "tool_call_id" (by decide) (by decide) hno,
      decodeField_rename _ members "activityType" "activity_type" (by decide) (by decide)
        hno,
      decodeField_rename _ members "toolCalls" "tool_calls" (by decide) (by decide) hno,
      decodeField_rename _ members "encryptedContent" "encrypted_content" (by decide)
        (by decide) hno,
      decodeField_rename _ members "encryptedValue" "encrypted_value" (by decide)
        (by decide) hno]
    simp only [messageInner_of_ne "id" (by decide), messageInner_of_ne "role" (by decide),
      messageInner_of_ne "error" (by decide), messageInner_of_ne "toolCallId" (by decide),
      messageInner_of_ne "activityType" (by decide),
      messageInner_of_ne "toolCalls" (by decide),
      messageInner_of_ne "encryptedContent" (by decide),
      messageInner_of_ne "encryptedValue" (by decide), Option.map_id',
      resolveContent_messageInner _ _ hcontent]
  | _ => rfl

/-- C10: a RunAgentInput payload written with camelCase keys and the payload obtained
from it by renaming each aliased key (threadId, runId, parentRunId, forwardedProps,
toolCalls, toolCallId, activityType, encryptedContent, encryptedValue, mimeType) to its
snake_case spelling decode to the same result; so when the camelCase payload is valid
and decodes to a run input, the renamed payload decodes to an equal run input: same
ids, same messages in the same order, same tools, context, state and forwarded
props. -/
theorem decode_toSnakeCase (payload : JSON) (input : RunAgentInput)
    (hcamel : writtenInCamelCase payload = true)
    (hvalid : decodeRunAgentInput payload = .ok input) :
    decodeRunAgentInput (toSnakeCase payload) = .ok input := by
  rw [← hvalid]
  cases payload with
  | obj members =>
    have hno := membersCamel_keys runInputInnerCamel members hcamel
    have hmessages : decodeAll decodeMessage
          (itemsOf ((lookupKey "messages" members).map (runInputInner "messages")))
        = decodeAll decodeMessage (itemsOf (lookupKey "messages" members)) := by
      cases hm : lookupKey "messages" members with
      | none => rfl
      | some v =>
        have hv := membersCamel_lookup runInputInnerCamel members hcamel "messages" v hm
        cases v with
        | arr items =>
          simp only [runInputInnerCamel, if_true] at hv
          simp only [Option.map_some', runInputInner, if_true, itemsOf]
          exact decodeAll_map_congr decodeMessage messageToSnake items
            (fun x hx => decodeMessage_messageToSnake x (List.all_eq_true.1 hv x hx))
        | _ => simp only [Option.map_some', runInputInner, if_true]
    simp only [toSnakeCase, decodeRunAgentInput, membersOf]
    rw [lookupKey_rename_plain _ members "state" (by decide) (by decide),
      lookupKey_rename_plain _ members "messages" (by decide) (by decide),
      lookupKey_rename_plain _ members "tools" (by decide) (by decide),
      lookupKey_rename_plain _ members "context" (by decide) (by decide),
      decodeField_rename _ members "threadId" "thread_id" (by decide) (by decide) hno,
      decodeField_rename _ members "runId" "run_id" (by decide) (by decide) hno,
      decodeField_rename _ members "parentRunId" "parent_run_id" (by decide) (by decide)
        hno,
      decodeField_rename _ members "forwardedProps" "forwarded_props" (by decide)
        (by decide) hno,
      hmessages]
    simp only [runInputInner_of_ne "state" (by decide),
      runInputInner_of_ne "tools" (by decide), runInputInner_of_ne "context" (by decide),
      runInputInner_of_ne "threadId" (by decide), runInputInner_of_ne "runId" (by decide),
      runInputInner_of_ne "parentRunId" (by decide),
      runInputInner_of_ne "forwardedProps" (by decide), Option.map_id']
  | _ => rfl

/-- Witness for C10: the camelCase payload of TestRunAgentInputUnmarshalCamelCase is
written in camelCase and decodes to three messages, one tool and one context entry;
its snake_case respelling decodes to the same run input. -/
theorem decode_toSnakeCase_witness :
    writtenInCamelCase camelCasePayload = true ∧
    decodeRunAgentInput camelCasePayload = .ok camelCaseDecoded ∧
    decodeRunAgentInput (toSnakeCase camelCasePayload) = .ok camelCaseDecoded :=
  ⟨rfl, rfl, decode_toSnakeCase camelCasePayload camelCaseDecoded rfl rfl⟩

/-! ## Role-specific requirements of the message decoder -/

/-- A message that decodes has the role its tag names and the content that the
resolver gives for that role, and its role-specific fields passed their checks. -/
theorem decodeMessage_ok_inv (members : List (String × JSON)) (m : Message)
    (h : decodeMessage (.obj members) = .ok m) :
    decodeRole (lookupKey "role" members) = .ok m.Role ∧
    resolveContent m.Role (lookupKey "content" members) = .ok m.Content ∧
    decodeRoleField (m.Role = .tool) "toolCallId"
      (decodeField members "toolCallId" "tool_call_id") = .ok m.ToolCallID := by
  simp only [decodeMessage, membersOf] at h
  split at h
  · cases h
  · split at h
    · cases h
    · rename_i role hrole
      split at h
      · cases h
      · rename_i tc htc
        split at h
        · cases h
        · split at h
          · cases h
          · rename_i content hcontent
            cases h
            exact ⟨hrole, hcontent, htc⟩

/-- A message whose content the resolver rejects for its role does not decode. -/
theorem decodeMessage_fails_of_content (members : List (String × JSON)) (role : Role)
    (hrole : decodeRole (lookupKey "role" members) = .ok role)
    (hcontent : ∃ e, resolveContent role (lookupKey "content" members) = .error e) :
    ∃ e, decodeMessage (.obj members) = .error e := by
  cases hd : decodeMessage (.obj members) with
  | error e => exact ⟨e, rfl⟩
  | ok m =>
    obtain ⟨h1, h2, _⟩ := decodeMessage_ok_inv members m hd
    obtain ⟨e, he⟩ := hcontent
    rw [hrole] at h1
    cases h1
    rw [he] at h2
    cases h2

/-- C12: the role decides the legal shape of the content and every mismatch is
rejected: an activity message with string or list content, a reasoning or tool
message with object or list content, and a user message whose content is neither a
string nor a list all fail to decode, whatever their other fields.  Nothing is
coerced: a message that decodes holds exactly the content of its payload, in the
shape its role allows (a string; an object for activity; for user a list, decoded
part by part; nothing for an assistant message without content). -/
theorem content_shape_follows_role (members : List (String × JSON)) :
    (lookupKey "role" members = some (.str "activity") →
      (∀ s, lookupKey "content" members = some (.str s) →
        ∃ e, decodeMessage (.obj members) = .error e) ∧
      (∀ items, lookupKey "content" members = some (.arr items) →
        ∃ e, decodeMessage (.obj members) = .error e)) ∧
    ((lookupKey "role" members = some (.str "reasoning") ∨
        lookupKey "role" members = some (.str "tool")) →
      (∀ o, lookupKey "content" members = some (.obj o) →
        ∃ e, decodeMessage (.obj members) = .error e) ∧
      (∀ items, lookupKey "content" members = some (.arr items) →
        ∃ e, decodeMessage (.obj members) = .error e)) ∧
    (lookupKey "role" members = some (.str "user") →
      (∀ s, lookupKey "content" members ≠ some (.str s)) →
      (∀ items, lookupKey "content" members ≠ some (.arr items)) →
      ∃ e, decodeMessage (.obj members) = .error e) ∧
    (∀ m, decodeMessage (.obj members) = .ok m →
      (m.Role = .assistant ∧ lookupKey "content" members = none ∧ m.Content = .absent) ∨
      (m.Role ≠ .activity ∧
        ∃ s, lookupKey "content" members = some (.str s) ∧ m.Content = .value (.str s)) ∨
      (m.Role = .activity ∧
        ∃ o, lookupKey "content" members = some (.obj o) ∧ m.Content = .value (.obj o)) ∨
      (m.Role = .user ∧
        ∃ items ps, lookupKey "content" members = some (.arr items) ∧
          decodeAll decodeInputContent items = .ok ps ∧ m.Content = .parts ps)) := by
  refine ⟨?_, ?_, ?_, ?_⟩
  · intro hrole
    have hr : decodeRole (lookupKey "role" members) = .ok .activity := by
      rw [hrole]; rfl
    constructor
    · intro s hs
      exact decodeMessage_fails_of_content members .activity hr ⟨_, by rw [hs]; rfl⟩
    · intro items hs
      exact decodeMessage_fails_of_content members .activity hr ⟨_, by rw [hs]; rfl⟩
  · intro hrole
    rcases hrole with hrole | hrole
    · have hr : decodeRole (lookupKey "role" members) = .ok .reasoning := by
        rw [hrole]; rfl
      constructor
      · intro o hs
        exact decodeMessage_fails_of_content members .reasoning hr ⟨_, by rw [hs]; rfl⟩
      · intro items hs
        exact decodeMessage_fails_of_content members .reasoning hr ⟨_, by rw [hs]; rfl⟩
    · have hr : decodeRole (lookupKey "role" members) = .ok .tool := by
        rw [hrole]; rfl
      constructor
      · intro o hs
        exact decodeMessage_fails_of_content members .tool hr ⟨_, by rw [hs]; rfl⟩
      · intro items hs
        exact decodeMessage_fails_of_content members .tool hr ⟨_, by rw [hs]; rfl⟩
  · intro hrole h1 h2
    have hr : decodeRole (lookupKey "role" members) = .ok .user := by
      rw [hrole]; rfl
    refine decodeMessage_fails_of_content members .user hr ⟨.InvalidContentShape, ?_⟩
    cases hc : lookupKey "content" members with
    | none => rfl
    | some v =>
      cases v with
      | str s => exact absurd hc (h1 s)
      | arr items => exact absurd hc (h2 items)
      | _ => rfl
  · intro m hm
    obtain ⟨_, hcontent, _⟩ := decodeMessage_ok_inv members m hm
    obtain ⟨id, role, content, at', tcs, tcid, err, ec, ev⟩ := m
    simp only at hcontent ⊢
    cases hc : lookupKey "content" members with
    | none =>
      rw [hc] at hcontent
      cases role <;> simp [resolveContent] at hcontent
      left
      exact ⟨rfl, rfl, hcontent.symm⟩
    | some v =>
      rw [hc] at hcontent
      cases v with
      | str s =>
        right; left
        cases role <;> simp [resolveContent] at hcontent <;> simp [hcontent.symm]
      | obj o =>
        right; right; left
        cases role <;> simp [resolveContent] at hcontent
        simp [hcontent.symm]
      | arr items =>
        right; right; right
        cases role <;> simp only [resolveContent] at hcontent <;>
          first | cases hcontent | skip
        cases hd : decodeAll decodeInputContent items with
        | error e =>
          rw [hd] at hcontent
          cases hcontent
        | ok ps =>
          rw [hd] at hcontent
          injection hcontent with hcontent
          exact ⟨rfl, items, ps, rfl, hd, hcontent.symm⟩
      | null => cases role <;> simp [resolveContent] at hcontent
      | bool b => cases role <;> simp [resolveContent] at hcontent
      | num n => cases role <;> simp [resolveContent] at hcontent

/-- Witness for C12: an activity message with string content fails with
InvalidContentShape although its id and activityType are in place, and the activity
payload of the test, whose content is an object, decodes with that object. -/
theorem content_shape_follows_role_witness :
    (∃ e, decodeMessage (.obj [("id", .str "msg-1"), ("role", .str "activity"),
      ("activityType", .str "progress"), ("content", .str "plain")]) = .error e) ∧
    decodeMessage (.obj [("id", .str "msg-1"), ("role", .str "activity"),
      ("activityType", .str "progress"), ("content", .str "plain")])
      = .error .InvalidContentShape ∧
    decodeMessage activityPayload
      = .ok { ID := "msg-1", Role := .activity, ActivityType := "progress",
              Content := .value (.obj [("step", .num "1")]) } :=
  ⟨((content_shape_follows_role [("id", .str "msg-1"), ("role", .str "activity"),
      ("activityType", .str "progress"), ("content", .str "plain")]).1 rfl).1 "plain" rfl,
   rfl, rfl⟩

/-! ## One invalid part fails the list -/

end types
